import Mathlib

/-!
Verification development for the readwise-cli TUI core (src/unnamed/part_003,
src/unnamed/part_000, src/src/tui/term.ts).  The TypeScript sources are
shallowly embedded: JS numbers that hold list indices / date parts are
modelled as `Int` (JS `%` is truncated remainder, `Int.tmod`), JS objects
used as string maps are association lists in insertion order (spread update
`{...o, [k]: v}` replaces in place or appends), JSON values are an inductive
`Json` with an executable parser and serializer, and the event loop
(`runApp.onData`) is a step function over an explicit event type.
-/

namespace RWCli

/-- JS `%`: truncated remainder (sign of the dividend). -/
def jsMod (a b : Int) : Int := Int.tmod a b

/-- JS object lookup `o[k]` for objects used as string-keyed maps. -/
def olookup {α : Type} : List (String × α) → String → Option α
  | [], _ => none
  | (k, v) :: rest, key => if k = key then some v else olookup rest key

/-- JS spread update `{...o, [k]: v}`: replaces the value in place when the
key exists (keys keep their first-insertion position), else appends. -/
def oupsert {α : Type} : List (String × α) → String → α → List (String × α)
  | [], key, v => [(key, v)]
  | (k, w) :: rest, key, v =>
    if k = key then (k, v) :: rest else (k, w) :: oupsert rest key v

/-- JS array indexing `a[i]` (out of range / negative index gives undefined). -/
def getI {α : Type} (l : List α) (i : Int) : Option α :=
  if i < 0 then none else l.get? i.toNat

/-- JS `Array.prototype.indexOf`: position of the first occurrence, or -1. -/
def idxOf {α : Type} [DecidableEq α] (l : List α) (x : α) : Int :=
  match l.indexOf? x with
  | some n => (n : Int)
  | none => -1

/-- JS `a.splice(i, 1)` (as a pure function): remove the element at index i. -/
def removeAt {α : Type} (l : List α) (i : Int) : List α :=
  if i < 0 then l else l.eraseIdx i.toNat

/-- JS `a[i] = x` for 0 ≤ i < length (the only case the app reaches). -/
def setI {α : Type} (l : List α) (i : Int) (x : α) : List α :=
  if i < 0 then l else l.set i.toNat x

/-- Whitespace for JS `String.prototype.trim` / `\s` (ASCII part plus NBSP;
the remaining Unicode space code points never occur in the app's data). -/
def isJsWs (c : Char) : Bool :=
  c = ' ' || c = '\t' || c = '\n' || c = '\r' ||
  c = '\x0b' || c = '\x0c' || c = ' '

/-- JS `s.trim()`. -/
def jsTrim (s : String) : String :=
  String.mk ((s.toList.dropWhile isJsWs).reverse.dropWhile isJsWs |>.reverse)

def splitCharGo (sep : Char) : List Char → List Char → List String
  | [], cur => [String.mk cur.reverse]
  | c :: rest, cur =>
    if c = sep then String.mk cur.reverse :: splitCharGo sep rest []
    else splitCharGo sep rest (c :: cur)

/-- JS `s.split(sep)` for a one-character separator (`"".split(",") = [""]`). -/
def jsSplitChar (s : String) (sep : Char) : List String :=
  splitCharGo sep s.toList []

def splitWsGo : List Char → List Char → Bool → List String
  | [], cur, _ => [String.mk cur.reverse]
  | c :: rest, cur, skipping =>
    if isJsWs c then
      if skipping then splitWsGo rest cur skipping
      else String.mk cur.reverse :: splitWsGo rest [] true
    else splitWsGo rest (c :: cur) false

/-- JS `s.split(/\s+/)`: split on runs of whitespace; a leading run yields a
leading empty segment, a trailing run a trailing one. -/
def jsSplitWs (s : String) : List String :=
  splitWsGo s.toList [] false

/-- `p` is a prefix of `s` (char-by-char; JS `s.startsWith(p)`). -/
def strHasPfx (p s : String) : Bool := p.toList.isPrefixOf s.toList

def strContainsGo (needle : List Char) : List Char → Bool
  | [] => needle.isEmpty
  | c :: rest => needle.isPrefixOf (c :: rest) || strContainsGo needle rest

/-- JS `haystack.includes(needle)`. -/
def strContains (haystack needle : String) : Bool :=
  strContainsGo needle.toList haystack.toList

/-- JS `s.toLowerCase()` (ASCII; tool names and queries are ASCII). -/
def jsToLower (s : String) : String := String.mk (s.toList.map Char.toLower)

/-- JS `s.padStart(n, c)`. -/
def padStart (s : String) (n : Nat) (c : Char) : String :=
  if s.length ≥ n then s else String.mk (List.replicate (n - s.length) c) ++ s

/-- JS `c.repeat(n)` for a one-character string. -/
def repeatChar (c : Char) (n : Nat) : String := String.mk (List.replicate n c)

def replaceFirstGo (pat rep : List Char) : List Char → List Char
  | [] => []
  | c :: rest =>
    if pat.isPrefixOf (c :: rest) then rep ++ (c :: rest).drop pat.length
    else c :: replaceFirstGo pat rep rest

/-- JS `s.replace(pat, rep)` with a string pattern: first occurrence only. -/
def replaceFirst (s pat rep : String) : String :=
  String.mk (replaceFirstGo pat.toList rep.toList s.toList)

/-- JS `s.slice(0, -1)`: drop the last character. -/
def dropLast1 (s : String) : String := String.mk s.toList.dropLast

/-- JS `s.slice(a, b)` restricted to 0 ≤ a ≤ b (the app's uses). -/
def sliceN (s : String) (a b : Nat) : String :=
  String.mk ((s.toList.take b).drop a)

/-- JS `s.slice(a)` for 0 ≤ a. -/
def sliceFrom (s : String) (a : Nat) : String := String.mk (s.toList.drop a)

/-- `word.charAt(0).toUpperCase() + word.slice(1)` (ASCII upper-casing). -/
def capitalizeWord (w : String) : String :=
  match w.toList with
  | [] => ""
  | c :: rest => String.mk (c.toUpper :: rest)

/-- Filter out the characters matched by `/[\x00-\x1f\x7f]/g`. -/
def stripCtl (s : String) : String :=
  String.mk (s.toList.filter fun c => !(c.toNat ≤ 0x1f || c.toNat = 0x7f))

/-- Char class `\w` of the JS regexes used by the word-boundary helpers. -/
def isWordChar (c : Char) : Bool :=
  (('a' ≤ c && c ≤ 'z') || ('A' ≤ c && c ≤ 'Z') || ('0' ≤ c && c ≤ '9') || c = '_')

/-! ## JSON values

JS JSON values.  Numbers are modelled as exact rationals: the app only ever
compares, stores and re-serializes them, so double rounding is irrelevant to
every claim below.  Objects are insertion-ordered association lists
(`JSON.parse` keeps the first position of a duplicated key, last value). -/

inductive Json where
  | null : Json
  | bool (b : Bool) : Json
  | num (q : ℚ) : Json
  | str (s : String) : Json
  | arr (elems : List Json) : Json
  | obj (fields : List (String × Json)) : Json

def Json.isArr : Json → Bool
  | .arr _ => true
  | _ => false

/-- JSON whitespace accepted by `JSON.parse`. -/
def jsonWsChar (c : Char) : Bool := c = ' ' || c = '\t' || c = '\n' || c = '\r'

def jsonSkipWs (cs : List Char) : List Char := cs.dropWhile jsonWsChar

def isDigit (c : Char) : Bool := '0' ≤ c && c ≤ '9'

def digitVal (c : Char) : Nat := c.toNat - '0'.toNat

def digitsToNat (ds : List Char) : Nat := ds.foldl (fun a c => a * 10 + digitVal c) 0

def hexVal (c : Char) : Option Nat :=
  let n := c.toNat
  if 48 ≤ n && n ≤ 57 then some (n - 48)
  else if 97 ≤ n && n ≤ 102 then some (n - 87)
  else if 65 ≤ n && n ≤ 70 then some (n - 55)
  else none

/-- Parse the body of a JSON string literal (after the opening quote). -/
def jsonParseStrGo : Nat → List Char → List Char → Option (String × List Char)
  | 0, _, _ => none
  | _ + 1, _acc, [] => none
  | fuel + 1, acc, c :: rest =>
    if c = '"' then some (String.mk acc.reverse, rest)
    else if c = '\\' then
      match rest with
      | [] => none
      | e :: rest2 =>
        if e = '"' then jsonParseStrGo fuel ('"' :: acc) rest2
        else if e = '\\' then jsonParseStrGo fuel ('\\' :: acc) rest2
        else if e = '/' then jsonParseStrGo fuel ('/' :: acc) rest2
        else if e = 'b' then jsonParseStrGo fuel ('\x08' :: acc) rest2
        else if e = 'f' then jsonParseStrGo fuel ('\x0c' :: acc) rest2
        else if e = 'n' then jsonParseStrGo fuel ('\n' :: acc) rest2
        else if e = 'r' then jsonParseStrGo fuel ('\r' :: acc) rest2
        else if e = 't' then jsonParseStrGo fuel ('\t' :: acc) rest2
        else if e = 'u' then
          match rest2 with
          | h1 :: h2 :: h3 :: h4 :: rest3 =>
            match hexVal h1, hexVal h2, hexVal h3, hexVal h4 with
            | some a, some b, some c2, some d =>
              let n := ((a * 16 + b) * 16 + c2) * 16 + d
              if _h : n.isValidChar then jsonParseStrGo fuel (Char.ofNat n :: acc) rest3
              else none
            | _, _, _, _ => none
          | _ => none
        else none
    else if c.toNat < 0x20 then none
    else jsonParseStrGo fuel (c :: acc) rest

/-- Parse a JSON number per the JSON grammar; exact value as a rational. -/
def jsonParseNum (cs : List Char) : Option (ℚ × List Char) :=
  let (sign, cs1) := match cs with
    | '-' :: rest => ((-1 : ℚ), rest)
    | _ => ((1 : ℚ), cs)
  match cs1 with
  | [] => none
  | c :: _ =>
    if !isDigit c then none
    else
      -- integer part: either a lone 0 or a nonzero digit followed by digits
      let (intDs, cs2) :=
        if c = '0' then ([c], cs1.drop 1)
        else (cs1.takeWhile isDigit, cs1.dropWhile isDigit)
      let (fracDs, cs3) :=
        match cs2 with
        | '.' :: rest =>
          (rest.takeWhile isDigit, rest.dropWhile isDigit)
        | _ => ([], cs2)
      let fracOk := match cs2 with
        | '.' :: rest => !(rest.takeWhile isDigit).isEmpty
        | _ => true
      let (expOk, expVal, cs4) :=
        match cs3 with
        | e :: rest =>
          if e = 'e' || e = 'E' then
            let (esign, rest2) := match rest with
              | '-' :: r => ((-1 : Int), r)
              | '+' :: r => ((1 : Int), r)
              | _ => ((1 : Int), rest)
            let ds := rest2.takeWhile isDigit
            if ds.isEmpty then (false, (0 : Int), cs3)
            else (true, esign * (digitsToNat ds : Int), rest2.dropWhile isDigit)
          else (true, (0 : Int), cs3)
        | [] => (true, (0 : Int), cs3)
      if !fracOk || !expOk then none
      else
        let mantissa : ℚ :=
          (digitsToNat intDs : ℚ) + (digitsToNat fracDs : ℚ) / ((10 : ℚ) ^ fracDs.length)
        some (sign * mantissa * (10 : ℚ) ^ expVal, cs4)

mutual

/-- Recursive-descent JSON value parser (fuel-indexed). -/
def jsonParseVal : Nat → List Char → Option (Json × List Char)
  | 0, _ => none
  | fuel + 1, cs =>
    match jsonSkipWs cs with
    | [] => none
    | c :: rest =>
      if c = 'n' then
        match c :: rest with
        | 'n' :: 'u' :: 'l' :: 'l' :: r => some (.null, r)
        | _ => none
      else if c = 't' then
        match c :: rest with
        | 't' :: 'r' :: 'u' :: 'e' :: r => some (.bool true, r)
        | _ => none
      else if c = 'f' then
        match c :: rest with
        | 'f' :: 'a' :: 'l' :: 's' :: 'e' :: r => some (.bool false, r)
        | _ => none
      else if c = '"' then
        match jsonParseStrGo (rest.length + 1) [] rest with
        | some (s, r) => some (.str s, r)
        | none => none
      else if c = '[' then
        match jsonSkipWs rest with
        | ']' :: r => some (.arr [], r)
        | _ => jsonParseArrGo fuel [] rest
      else if c = '{' then
        match jsonSkipWs rest with
        | '}' :: r => some (.obj [], r)
        | _ => jsonParseObjGo fuel [] rest
      else
        match jsonParseNum (c :: rest) with
        | some (q, r) => some (.num q, r)
        | none => none

/-- Elements of a (non-empty) JSON array after `[` / after a comma. -/
def jsonParseArrGo : Nat → List Json → List Char → Option (Json × List Char)
  | 0, _, _ => none
  | fuel + 1, acc, cs =>
    match jsonParseVal fuel cs with
    | none => none
    | some (v, rest) =>
      match jsonSkipWs rest with
      | ',' :: r => jsonParseArrGo fuel (v :: acc) r
      | ']' :: r => some (.arr (v :: acc).reverse, r)
      | _ => none

/-- Members of a (non-empty) JSON object after `{` / after a comma. -/
def jsonParseObjGo : Nat → List (String × Json) → List Char → Option (Json × List Char)
  | 0, _, _ => none
  | fuel + 1, acc, cs =>
    match jsonSkipWs cs with
    | '"' :: rest =>
      match jsonParseStrGo (rest.length + 1) [] rest with
      | none => none
      | some (k, rest2) =>
        match jsonSkipWs rest2 with
        | ':' :: rest3 =>
          match jsonParseVal fuel rest3 with
          | none => none
          | some (v, rest4) =>
            match jsonSkipWs rest4 with
            | ',' :: r => jsonParseObjGo fuel (oupsert acc k v) r
            | '}' :: r => some (.obj (oupsert acc k v), r)
            | _ => none
        | _ => none
    | _ => none

end

/-- JS `JSON.parse(s)`: `none` models a thrown SyntaxError. -/
def jsonParse (s : String) : Option Json :=
  match jsonParseVal (s.length + 1) s.toList with
  | some (v, rest) => if (jsonSkipWs rest).isEmpty then some v else none
  | none => none

/-- Decimal digits of the fractional part of a nonnegative rational < 1
(fuel-capped; every number the app serializes terminates well within it). -/
def fracDigits : Nat → ℚ → List Char
  | 0, _ => []
  | fuel + 1, q =>
    if q = 0 then []
    else
      let q10 := q * 10
      let d : ℤ := q10.num / q10.den
      Char.ofNat ('0'.toNat + d.toNat) :: fracDigits fuel (q10 - (d : ℚ))

/-- JS number-to-string for the numbers the app produces (integers and
terminating decimals; double shortest-round-trip formatting is not modelled
beyond these). -/
def jsNumToString (q : ℚ) : String :=
  if q.den = 1 then toString q.num
  else
    let sign := if q < 0 then "-" else ""
    let a := |q|
    let ip : ℤ := a.num / a.den
    sign ++ toString ip ++ "." ++ String.mk (fracDigits 32 (a - (ip : ℚ)))

def hexDigitChar (n : Nat) : Char :=
  if n < 10 then Char.ofNat ('0'.toNat + n) else Char.ofNat ('a'.toNat + n - 10)

/-- `JSON.stringify` escaping of one string character. -/
def jsonEscapeChar (c : Char) : String :=
  if c = '"' then "\\\""
  else if c = '\\' then "\\\\"
  else if c = '\x08' then "\\b"
  else if c = '\t' then "\\t"
  else if c = '\n' then "\\n"
  else if c = '\x0c' then "\\f"
  else if c = '\r' then "\\r"
  else if c.toNat < 0x20 then
    "\\u00" ++ String.mk [hexDigitChar (c.toNat / 16), hexDigitChar (c.toNat % 16)]
  else String.singleton c

def jsonQuote (s : String) : String :=
  "\"" ++ String.join (s.toList.map jsonEscapeChar) ++ "\""

mutual

/-- JS `JSON.stringify(v)` (no indent argument). -/
def jsonStringify : Json → String
  | .null => "null"
  | .bool b => if b then "true" else "false"
  | .num q => jsNumToString q
  | .str s => jsonQuote s
  | .arr xs => "[" ++ jsonStringifyElems xs ++ "]"
  | .obj fs => "\x7b" ++ jsonStringifyFields fs ++ "\x7d"

/-- Comma-joined serializations of array elements. -/
def jsonStringifyElems : List Json → String
  | [] => ""
  | [x] => jsonStringify x
  | x :: y :: rest => jsonStringify x ++ "," ++ jsonStringifyElems (y :: rest)

/-- Comma-joined `"key":value` serializations of object members. -/
def jsonStringifyFields : List (String × Json) → String
  | [] => ""
  | [(k, v)] => jsonQuote k ++ ":" ++ jsonStringify v
  | (k, v) :: y :: rest =>
    jsonQuote k ++ ":" ++ jsonStringify v ++ "," ++ jsonStringifyFields (y :: rest)

end

mutual

/-- JS `String(v)` coercion of a JSON value (arrays join with commas, any
object prints as `[object Object]`, as in `Array/Object.prototype.toString`). -/
def jsToString : Json → String
  | .null => "null"
  | .bool b => if b then "true" else "false"
  | .num q => jsNumToString q
  | .str s => s
  | .arr xs => jsToStringJoin xs
  | .obj _ => "[object Object]"

/-- `Array.prototype.toString`: elements joined by commas, null printing as
the empty string. -/
def jsToStringJoin : List Json → String
  | [] => ""
  | [.null] => ""
  | [x] => jsToString x
  | .null :: y :: rest => "," ++ jsToStringJoin (y :: rest)
  | x :: y :: rest => jsToString x ++ "," ++ jsToStringJoin (y :: rest)

end

/-- JS `Number(s)` on the decimal grammar (sign, digits, fraction, exponent;
empty or all-whitespace gives 0).  `none` models NaN.  The hex/octal/binary
and Infinity literal forms never arise from the app's drafts and are mapped
to NaN here. -/
def jsNumber (s : String) : Option ℚ :=
  let t := jsTrim s
  if t = "" then some 0
  else
    let cs := t.toList
    let (sign, cs1) := match cs with
      | '-' :: rest => ((-1 : ℚ), rest)
      | '+' :: rest => ((1 : ℚ), rest)
      | _ => ((1 : ℚ), cs)
    let intDs := cs1.takeWhile isDigit
    let cs2 := cs1.dropWhile isDigit
    let (fracDs, cs3) :=
      match cs2 with
      | '.' :: rest => (rest.takeWhile isDigit, rest.dropWhile isDigit)
      | _ => ([], cs2)
    if intDs.isEmpty && fracDs.isEmpty then none
    else
      let (expOk, expVal, cs4) :=
        match cs3 with
        | e :: rest =>
          if e = 'e' || e = 'E' then
            let (esign, rest2) := match rest with
              | '-' :: r => ((-1 : Int), r)
              | '+' :: r => ((1 : Int), r)
              | _ => ((1 : Int), rest)
            let ds := rest2.takeWhile isDigit
            if ds.isEmpty then (false, (0 : Int), cs3)
            else (true, esign * (digitsToNat ds : Int), rest2.dropWhile isDigit)
          else (true, (0 : Int), cs3)
        | [] => (true, (0 : Int), cs3)
      if !expOk || !cs4.isEmpty then none
      else
        let mantissa : ℚ :=
          (digitsToNat intDs : ℚ) + (digitsToNat fracDs : ℚ) / ((10 : ℚ) ^ fracDs.length)
        some (sign * mantissa * (10 : ℚ) ^ expVal)

/-! ## Schema model (`config.ts` interfaces, src/unnamed/part_000) -/

/-- `SchemaProperty`: recursive through `items`, `anyOf` and `properties`,
hence an inductive with named projections.  `enumVals` is `enum` in the
source; `ref` is `$ref`. -/
inductive SchemaProperty where
  | mk
    (type : Option String)
    (format : Option String)
    (description : Option String)
    (enumVals : Option (List String))
    (items : Option SchemaProperty)
    (default : Option Json)
    (anyOf : Option (List SchemaProperty))
    (ref : Option String)
    (properties : Option (List (String × SchemaProperty)))
    (required : Option (List String))

def SchemaProperty.type : SchemaProperty → Option String
  | .mk t _ _ _ _ _ _ _ _ _ => t

def SchemaProperty.format : SchemaProperty → Option String
  | .mk _ f _ _ _ _ _ _ _ _ => f

def SchemaProperty.description : SchemaProperty → Option String
  | .mk _ _ d _ _ _ _ _ _ _ => d

def SchemaProperty.enumVals : SchemaProperty → Option (List String)
  | .mk _ _ _ e _ _ _ _ _ _ => e

def SchemaProperty.items : SchemaProperty → Option SchemaProperty
  | .mk _ _ _ _ i _ _ _ _ _ => i

def SchemaProperty.default : SchemaProperty → Option Json
  | .mk _ _ _ _ _ d _ _ _ _ => d

def SchemaProperty.anyOf : SchemaProperty → Option (List SchemaProperty)
  | .mk _ _ _ _ _ _ a _ _ _ => a

def SchemaProperty.ref : SchemaProperty → Option String
  | .mk _ _ _ _ _ _ _ r _ _ => r

def SchemaProperty.properties : SchemaProperty → Option (List (String × SchemaProperty))
  | .mk _ _ _ _ _ _ _ _ p _ => p

def SchemaProperty.required : SchemaProperty → Option (List String)
  | .mk _ _ _ _ _ _ _ _ _ r => r

/-- `tool.inputSchema`. -/
structure InputSchema where
  type : String
  properties : Option (List (String × SchemaProperty))
  required : Option (List String)
  defs : Option (List (String × SchemaProperty))

structure ToolDef where
  name : String
  description : Option String
  inputSchema : InputSchema

structure FormField where
  name : String
  prop : SchemaProperty
  required : Bool

/-- JS spread `{...base, ...over}` on schema properties: `over`'s present
fields win (absent interface fields are not own properties). -/
def mergeProp (base over : SchemaProperty) : SchemaProperty :=
  .mk (over.type <|> base.type) (over.format <|> base.format)
    (over.description <|> base.description) (over.enumVals <|> base.enumVals)
    (over.items <|> base.items) (over.default <|> base.default)
    (over.anyOf <|> base.anyOf) (over.ref <|> base.ref)
    (over.properties <|> base.properties) (over.required <|> base.required)

def SchemaProperty.withAnyOfNone : SchemaProperty → SchemaProperty
  | .mk t f d e i df _ r p rq => .mk t f d e i df none r p rq

def SchemaProperty.withDescription : SchemaProperty → Option String → SchemaProperty
  | .mk t f _ e i df a r p rq, d => .mk t f d e i df a r p rq

/-- The key a `$ref` names in the `$defs` table (`#/$defs/Name` → `Name`). -/
def refKey (r : String) : String :=
  if strHasPfx "#/$defs/" r then sliceFrom r 8 else r

/-- Modelled from the spec: the `$ref` step of the two-argument
`resolveProperty(prop, $defs)` that app.ts (src/unnamed/part_003 line 1421)
imports from commands.ts.  That revision of commands.ts is not under src/ —
part_000 holds an older one-argument revision without `$ref` support.
Spec §4.3 step 1: "If the property has `$ref`, look it up in `$defs`; the
referenced schema replaces the property but preserves the outer
`description` if present."  An unresolvable `$ref` leaves the property
unchanged (spec §7: treated as plain text, no hard failure). -/
def resolveRefStep (prop : SchemaProperty)
    (defs : Option (List (String × SchemaProperty))) : SchemaProperty :=
  match prop.ref with
  | none => prop
  | some r =>
    match defs with
    | none => prop
    | some table =>
      match olookup table (refKey r) with
      | none => prop
      | some target => target.withDescription (prop.description <|> target.description)

/-- The `anyOf` collapse exactly as in part_000's `resolveProperty`: the
first member whose `type` is not `"null"` is spread over the property and
`anyOf` is dropped. -/
def resolveAnyOf (prop : SchemaProperty) : SchemaProperty :=
  match prop.anyOf with
  | none => prop
  | some members =>
    match members.find? (fun v => v.type ≠ some "null") with
    | some nonNull => (mergeProp prop nonNull).withAnyOfNone
    | none => prop

/-- Modelled from the spec: two-argument `resolveProperty(prop, $defs)` =
`$ref` resolution (spec §4.3 step 1) followed by the `anyOf` collapse that
part_000's revision implements (spec §4.3 step 2). -/
def resolveProperty (prop : SchemaProperty)
    (defs : Option (List (String × SchemaProperty))) : SchemaProperty :=
  resolveAnyOf (resolveRefStep prop defs)

/-- `isArrayOfObjects` (part_003 line 28). -/
def isArrayOfObjects (prop : SchemaProperty) : Bool :=
  prop.type = some "array" && (prop.items.bind (·.properties)).isSome

/-! ## Terminal string utilities (src/src/tui/term.ts) -/

structure KeyEvent where
  raw : String
  name : String
  shift : Bool
  ctrl : Bool

def sgrBodyChar (c : Char) : Bool := isDigit c || c = ';'

/-- `stripAnsi`: delete every match of `/\x1b\[[0-9;]*m/g`. -/
def stripAnsiGo : Nat → List Char → List Char
  | 0, cs => cs
  | fuel + 1, cs =>
    match cs with
    | [] => []
    | c :: rest =>
      if c = '\x1b' then
        match rest with
        | '[' :: rest2 =>
          match rest2.dropWhile sgrBodyChar with
          | 'm' :: rest3 => stripAnsiGo fuel rest3
          | _ => c :: stripAnsiGo fuel rest
        | _ => c :: stripAnsiGo fuel rest
      else c :: stripAnsiGo fuel rest

def stripAnsi (s : String) : String := String.mk (stripAnsiGo s.length s.toList)

/-- Split a character list at the first occurrence of `ch`
(JS `indexOf(ch)`, keeping both sides). -/
def splitAtFirst (ch : Char) : List Char → Option (List Char × List Char)
  | [] => none
  | c :: rest =>
    if c = ch then some ([], rest)
    else (splitAtFirst ch rest).map fun ab => (c :: ab.1, ab.2)

/-- The truncation loop of `fitWidth`: walk the string counting visible
columns, skipping from any ESC to the next `m`; returns (consumed, rest). -/
def fitTruncGo : Nat → List Char → List Char → Int → Int → (List Char × List Char)
  | 0, acc, rem, _, _ => (acc.reverse, rem)
  | fuel + 1, acc, rem, count, width =>
    match rem with
    | [] => (acc.reverse, [])
    | c :: rest =>
      if count < width then
        if c = '\x1b' then
          match splitAtFirst 'm' rest with
          | some (before, after) =>
            fitTruncGo fuel (('m' :: before.reverse) ++ (c :: acc)) after count width
          | none => fitTruncGo fuel (c :: acc) rest (count + 1) width
        else fitTruncGo fuel (c :: acc) rest (count + 1) width
      else (acc.reverse, c :: rest)

/-- Maximal prefix of complete SGR sequences, `/^(\x1b\[[0-9;]*m)*/`. -/
def ansiRunGo : Nat → List Char → List Char
  | 0, _ => []
  | fuel + 1, cs =>
    match cs with
    | '\x1b' :: '[' :: rest =>
      let body := rest.takeWhile sgrBodyChar
      match rest.dropWhile sgrBodyChar with
      | 'm' :: rest2 => '\x1b' :: '[' :: (body ++ 'm' :: ansiRunGo fuel rest2)
      | _ => []
    | _ => []

/-- `fitWidth(s, width)` from term.ts: pad or truncate to a visible width,
ANSI-aware, keeping complete SGR codes at the cut. -/
def fitWidth (s : String) (width : Int) : String :=
  let visible := stripAnsi s
  if (visible.length : Int) ≥ width then
    let cut := fitTruncGo s.length [] s.toList 0 width
    String.mk cut.1 ++ String.mk (ansiRunGo cut.2.length cut.2)
  else s ++ repeatChar ' ' (width - (visible.length : Int)).toNat

/-! ## Date model (part_003 lines 369-467) -/

inductive DateFormat where
  | date : DateFormat
  | dateTime : DateFormat
deriving DecidableEq

/-- `dateFieldFormat(prop)`. -/
def dateFieldFormat (prop : SchemaProperty) : Option DateFormat :=
  if prop.format = some "date" then some .date
  else if prop.format = some "date-time" then some .dateTime
  else none

/-- `daysInMonth(year, month) = new Date(year, month, 0).getDate()`:
days of 1-based `month` of `year`, with JS `Date` argument normalization
(a year in [0, 99] means 1900+year; any integer month carries into the
year; proleptic Gregorian leap rule). -/
def daysInMonth (year month : Int) : Int :=
  let y0 := if 0 ≤ year && year ≤ 99 then year + 1900 else year
  let t := month - 1
  let y := y0 + t.fdiv 12
  let m := t.emod 12
  let leap := y % 4 = 0 && (y % 100 ≠ 0 || y % 400 = 0)
  if m = 1 then (if leap then 29 else 28)
  else if m = 3 || m = 5 || m = 8 || m = 10 then 30
  else 31

def datePartCount (fmt : DateFormat) : Int :=
  match fmt with
  | .date => 3
  | .dateTime => 5

/-- The unanchored `/T(\d{2}):(\d{2})/` search of `parseDateParts`. -/
def findTimeMatch : List Char → Option (Int × Int)
  | [] => none
  | c :: rest =>
    if c = 'T' then
      match rest with
      | h1 :: h2 :: ':' :: m1 :: m2 :: _ =>
        if isDigit h1 && isDigit h2 && isDigit m1 && isDigit m2 then
          some ((digitsToNat [h1, h2] : Int), (digitsToNat [m1, m2] : Int))
        else findTimeMatch rest
      | _ => findTimeMatch rest
    else findTimeMatch rest

/-- `parseDateParts(value, fmt)`: anchored `^(\d{4})-(\d{2})-(\d{2})`,
then an optional `T(\d{2}):(\d{2})` for date-time (defaulting to 00:00). -/
def parseDateParts (value : String) (fmt : DateFormat) : Option (List Int) :=
  if value = "" then none
  else
    match value.toList with
    | y1 :: y2 :: y3 :: y4 :: '-' :: m1 :: m2 :: '-' :: d1 :: d2 :: _ =>
      if isDigit y1 && isDigit y2 && isDigit y3 && isDigit y4 &&
         isDigit m1 && isDigit m2 && isDigit d1 && isDigit d2 then
        let base : List Int :=
          [(digitsToNat [y1, y2, y3, y4] : Int), (digitsToNat [m1, m2] : Int),
           (digitsToNat [d1, d2] : Int)]
        match fmt with
        | .date => some base
        | .dateTime =>
          match findTimeMatch value.toList with
          | some (h, mi) => some (base ++ [h, mi])
          | none => some (base ++ [0, 0])
      else none
    | _ => none

/-- `datePartsToString(parts, fmt)`: zero-padded; date-time always ends in
`:00Z`. -/
def datePartsToString (parts : List Int) (fmt : DateFormat) : String :=
  let y := padStart (toString ((getI parts 0).getD 0)) 4 '0'
  let mo := padStart (toString ((getI parts 1).getD 0)) 2 '0'
  let d := padStart (toString ((getI parts 2).getD 0)) 2 '0'
  match fmt with
  | .date => y ++ "-" ++ mo ++ "-" ++ d
  | .dateTime =>
    let h := padStart (toString ((getI parts 3).getD 0)) 2 '0'
    let mi := padStart (toString ((getI parts 4).getD 0)) 2 '0'
    y ++ "-" ++ mo ++ "-" ++ d ++ "T" ++ h ++ ":" ++ mi ++ ":00Z"

/-- `adjustDatePart(parts, cursor, delta, fmt)` (part_003 lines 440-463). -/
def adjustDatePart (parts : List Int) (cursor delta : Int) (fmt : DateFormat) :
    List Int :=
  let g := fun (p : List Int) (i : Int) => (getI p i).getD 0
  let p :=
    if cursor = 0 then
      setI parts 0 (max 1900 (min 2100 (g parts 0 + delta)))
    else if cursor = 1 then
      setI parts 1 (jsMod (g parts 1 - 1 + delta + 120) 12 + 1)
    else if cursor = 2 then
      let mx := daysInMonth (g parts 0) (g parts 1)
      setI parts 2 (jsMod (g parts 2 - 1 + delta + mx * 100) mx + 1)
    else if cursor = 3 && fmt = .dateTime then
      setI parts 3 (jsMod (g parts 3 + delta + 240) 24)
    else if cursor = 4 && fmt = .dateTime then
      setI parts 4 (jsMod (g parts 4 + delta + 600) 60)
    else parts
  let maxDay := daysInMonth (g p 0) (g p 1)
  if g p 2 > maxDay then setI p 2 maxDay else p

/-! ## Layout (part_003 lines 471-507), parameterized by the screen size
that `screenSize()` reads, and by the logo height and host clock used by the
input handlers. -/

structure Env where
  cols : Int
  rows : Int
  logoLen : Int
  today : DateFormat → List Int

structure BoxDims where
  innerWidth : Int
  fillWidth : Int
  contentHeight : Int

def getBoxDimensions (env : Env) : BoxDims :=
  { innerWidth := max 0 (env.cols - 5)
    fillWidth := max 0 (env.cols - 3)
    contentHeight := max 1 (env.rows - 4) }

def RESET : String := "\x1b[0m"

/-- `renderLayout({breadcrumb, content, footer})`. -/
def renderLayout (env : Env) (breadcrumb : String) (content : List String)
    (footer : String) : List String :=
  let d := getBoxDimensions env
  ["  " ++ breadcrumb, " ╭" ++ repeatChar '─' d.fillWidth.toNat ++ "╮"]
  ++ ((List.range d.contentHeight.toNat).map fun i =>
      let raw := if i < content.length then (content.get? i).getD "" else ""
      " │ " ++ fitWidth raw d.innerWidth ++ RESET ++ " │")
  ++ [" ╰" ++ repeatChar '─' d.fillWidth.toNat ++ "╯", "  " ++ footer]

/-- `wrapText(text, width)` (part_003 lines 319-336). -/
def wrapTextLoop (width : Int) : List String → String → List String → List String
  | [], current, acc => if current ≠ "" then acc ++ [current] else acc
  | w :: ws, current, acc =>
    if current = "" then wrapTextLoop width ws w acc
    else if ((current.length : Int) + 1 + (w.length : Int)) ≤ width then
      wrapTextLoop width ws (current ++ " " ++ w) acc
    else wrapTextLoop width ws w (acc ++ [current])

def wrapText (text : String) (width : Int) : List String :=
  if width ≤ 0 then [text]
  else
    let lines := wrapTextLoop width (jsSplitWs text) "" []
    if lines.length > 0 then lines else [""]

/-! ## Command-list and form helpers (part_003 lines 75-240) -/

/-- JS `Array.prototype.findIndex` (−1 when no element matches). -/
def findIdxI {α : Type} (l : List α) (p : α → Bool) : Int :=
  match l.findIdx? p with
  | some n => (n : Int)
  | none => -1

/-- `humanLabel(toolName, prefix)`. -/
def humanLabel (toolName pfx : String) : String :=
  String.intercalate " "
    ((jsSplitChar (replaceFirst toolName (pfx ++ "_") "") '_').map capitalizeWord)

/-- `toolPrefix(tool)` in the source. -/
def toolGroupOf (tool : ToolDef) : String :=
  if strHasPfx "reader_" tool.name then "reader" else "readwise"

structure ListItem where
  label : String
  value : String
  description : Option String := none
  isSeparator : Bool := false

/-- `buildCommandList(tools)`: group into Reader / Readwise / Other with a
separator row heading each non-empty group, preserving catalog order. -/
def buildCommandList (tools : List ToolDef) : List ListItem :=
  let readwise := tools.filter fun t => strHasPfx "readwise_" t.name
  let reader := tools.filter fun t =>
    !(strHasPfx "readwise_" t.name) && strHasPfx "reader_" t.name
  let other := tools.filter fun t =>
    !(strHasPfx "readwise_" t.name) && !(strHasPfx "reader_" t.name)
  let mk := fun (pfx : String) (t : ToolDef) =>
    ({ label := if pfx = "" then t.name else humanLabel t.name pfx,
       value := t.name, description := t.description } : ListItem)
  let sec := fun (lbl pfx : String) (ts : List ToolDef) =>
    if ts.isEmpty then ([] : List ListItem)
    else ({ label := lbl, value := "", isSeparator := true } : ListItem)
      :: ts.map (mk pfx)
  sec "Reader" "reader" reader ++ sec "Readwise" "readwise" readwise
    ++ sec "Other" "" other

/-- `selectableIndices(items)`: indices of the non-separator rows. -/
def selectableIndices (items : List ListItem) : List Int :=
  (items.enum.filter fun p => !p.2.isSeparator).map fun p => (p.1 : Int)

/-- `filterCommands(tools, query)`. -/
def filterCommands (tools : List ToolDef) (query : String) : List ListItem :=
  if query = "" then buildCommandList tools
  else
    let q := jsToLower query
    tools.filterMap fun tool =>
      let pfx := toolGroupOf tool
      let label := if pfx = "" then tool.name else humanLabel tool.name pfx
      let haystack :=
        jsToLower (label ++ " " ++ tool.name ++ " " ++ tool.description.getD "")
      if strContains haystack q then
        some { label := label, value := tool.name, description := tool.description }
      else none

/-- `truncateVisible(s, maxWidth)`. -/
def truncateVisible (s : String) (maxWidth : Int) : String :=
  if (s.length : Int) ≤ maxWidth then s
  else if maxWidth ≤ 1 then "…"
  else sliceN s 0 (maxWidth - 1).toNat ++ "…"

/-- `filterFormFields(fields, query)`: matching field indices with the `-1`
Execute sentinel always appended. -/
def filterFormFields (fields : List FormField) (query : String) : List Int :=
  if query = "" then (List.range fields.length).map (fun n => (n : Int)) ++ [-1]
  else
    let q := jsToLower query
    (fields.enum.filterMap fun p =>
      if strContains (jsToLower p.2.name) q then some ((p.1 : Nat) : Int) else none)
    ++ [-1]

/-- `executeIndex(filtered)`. -/
def executeIndex (filtered : List Int) : Int := idxOf filtered (-1)

/-- `missingRequiredFields(fields, values)`: required fields whose draft is
unset (array-of-objects drafts must parse to a non-empty JSON array; the
member access `JSON.parse(val).length` inside the try also maps a parsed
`null` to unset via the catch, and a parsed string to its length). -/
def missingRequiredFields (fields : List FormField)
    (values : List (String × String)) : List FormField :=
  fields.filter fun f =>
    f.required &&
      (let val := jsTrim ((olookup values f.name).getD "")
       if val = "" then true
       else if isArrayOfObjects f.prop then
         match jsonParse val with
         | none => true
         | some (.arr xs) => xs.isEmpty
         | some (.str s) => s.length = 0
         | some .null => true
         | some _ => false
       else false)

/-- `defaultFormCursor(fields, filtered, values)`: first blank required
field's list position, else the Execute row. -/
def defaultFormCursor (fields : List FormField) (filtered : List Int)
    (values : List (String × String)) : Int :=
  let missing := (missingRequiredFields fields values).map (·.name)
  let firstBlank := findIdxI filtered fun idx =>
    idx ≥ 0 &&
      (match getI fields idx with
       | some f => missing.contains f.name
       | none => false)
  if firstBlank ≥ 0 then firstBlank else executeIndex filtered

/-! ## Application state (part_003 lines 11-71)

`formEnumSelected` is a JS `Set<number>`; the app only tests membership,
toggles, and iterates it sorted ascending, so a `Finset Int` is a faithful
model.  `formStack` keeps JS array order: push appends, pop takes the last
element. -/

inductive View where
  | commands : View
  | form : View
  | loading : View
  | results : View
deriving DecidableEq

structure FormStackEntry where
  parentFieldName : String
  parentFields : List FormField
  parentValues : List (String × String)
  parentNameColWidth : Int
  parentTitle : String
  editIndex : Int

structure AppState where
  view : View
  tools : List ToolDef
  listCursor : Int
  listScrollTop : Int
  quitConfirm : Bool
  searchQuery : String
  searchCursorPos : Int
  filteredItems : List ListItem
  selectedTool : Option ToolDef
  fields : List FormField
  nameColWidth : Int
  formSearchQuery : String
  formSearchCursorPos : Int
  formFilteredIndices : List Int
  formListCursor : Int
  formScrollTop : Int
  formEditFieldIdx : Int
  formEditing : Bool
  formInputBuf : String
  formInputCursorPos : Int
  formEnumCursor : Int
  formEnumSelected : Finset Int
  formValues : List (String × String)
  formShowRequired : Bool
  formShowOptional : Bool
  formStack : List FormStackEntry
  dateParts : List Int
  datePartCursor : Int
  result : String
  error : String
  resultScroll : Int
  resultScrollX : Int
  spinnerFrame : Int

/-- `val.split(",").map(s => s.trim())` as JSON strings. -/
def splitTrim (val : String) : List Json :=
  ((jsSplitChar val ',').map jsTrim).map Json.str

/-- `val.split(",").map(s => s.trim()).filter(Boolean)` as JSON strings. -/
def splitTrimFilter (val : String) : List Json :=
  (((jsSplitChar val ',').map jsTrim).filter (fun s => s ≠ "")).map Json.str

/-- The serialization loop of `popFormStack` (part_003 lines 246-265): one
JSON object from the sub-form's non-empty drafts, converted per field type. -/
def serializeSubValues (fields : List FormField)
    (values : List (String × String)) : List (String × Json) :=
  fields.foldl
    (fun acc f =>
      let val := (olookup values f.name).getD ""
      if val = "" then acc
      else if f.prop.type = some "integer" || f.prop.type = some "number" then
        match jsNumber val with
        | some n => oupsert acc f.name (.num n)
        | none => acc
      else if f.prop.type = some "boolean" then
        oupsert acc f.name (.bool (val = "true"))
      else if f.prop.type = some "array" then
        match jsonParse val with
        | some (.arr xs) => oupsert acc f.name (.arr xs)
        | some _ => oupsert acc f.name (.arr (splitTrimFilter val))
        | none => oupsert acc f.name (.arr (splitTrimFilter val))
      else oupsert acc f.name (.str val))
    []

/-- The `values[name] || "[]"` / `JSON.parse` pattern used by every
array-of-objects site: the stored draft parsed as a JSON array.  A draft
that parses to non-array JSON yields `[]` here; in the source that case
(unreachable: the editor only ever stores `[]` or a stringified array) would
misbehave on the subsequent array operations. -/
def parsedArrayDraft (values : List (String × String)) (name : String) :
    List Json :=
  let existing :=
    match olookup values name with
    | some v => if v = "" then "[]" else v
    | none => "[]"
  match jsonParse existing with
  | some (.arr xs) => xs
  | _ => []

/-- `popFormStack(state)` (part_003 lines 242-298): serialize the sub-form,
append to / replace in the parent array, restore the parent's fields and
return to the parent's array editor. -/
def popFormStack (state : AppState) : AppState :=
  match state.formStack.getLast? with
  | none => state
  | some entry =>
    let stack := state.formStack.dropLast
    let subObj := Json.obj (serializeSubValues state.fields state.formValues)
    let parentArr := parsedArrayDraft entry.parentValues entry.parentFieldName
    let newArr :=
      if entry.editIndex ≥ 0 then setI parentArr entry.editIndex subObj
      else parentArr ++ [subObj]
    let newParentValues :=
      oupsert entry.parentValues entry.parentFieldName (jsonStringify (.arr newArr))
    let parentFiltered := filterFormFields entry.parentFields ""
    let parentFieldIdx :=
      findIdxI entry.parentFields fun f => f.name = entry.parentFieldName
    { state with
      formStack := stack
      fields := entry.parentFields
      nameColWidth := entry.parentNameColWidth
      formValues := newParentValues
      formEditing := true
      formEditFieldIdx := parentFieldIdx
      formEnumCursor := (newArr.length : Int)
      formEnumSelected := ∅
      formSearchQuery := ""
      formSearchCursorPos := 0
      formFilteredIndices := parentFiltered
      formListCursor := defaultFormCursor entry.parentFields parentFiltered newParentValues
      formScrollTop := 0
      formShowRequired := false
      formShowOptional := false
      formInputBuf := ""
      formInputCursorPos := 0 }

/-! ## Word-boundary helpers (part_003 lines 340-367) -/

def isSpaceChar (c : Char) : Bool := isJsWs c

/-- `while (i > 0 && P(buf[i])) i--`. -/
def whileDec (p : Nat → Bool) : Nat → Nat
  | 0 => 0
  | Nat.succ i => if p (Nat.succ i) then whileDec p i else Nat.succ i

/-- `while (i > 0 && Q(buf[i-1])) i--`. -/
def whileDecPred (q : Nat → Bool) : Nat → Nat
  | 0 => 0
  | Nat.succ i => if q i then whileDecPred q i else Nat.succ i

/-- `while (i < len && P(buf[i])) i++` (fuel-driven). -/
def whileInc (p : Nat → Bool) (len : Nat) : Nat → Nat → Nat
  | 0, i => i
  | fuel + 1, i => if i < len && p i then whileInc p len fuel (i + 1) else i

/-- `prevWordBoundary(buf, pos)`.  A JS regex test on an out-of-range index
coerces `undefined` to the string "undefined" (so `\w` tests true, `\s`
false); the lookups model that coercion, though in-range cursors never hit
it. -/
def prevWordBoundary (buf : String) (pos : Int) : Int :=
  if pos ≤ 0 then 0
  else
    let cs := buf.toList
    let isW := fun (j : Nat) =>
      match cs.get? j with
      | some c => isWordChar c
      | none => true
    let isWs := fun (j : Nat) =>
      match cs.get? j with
      | some c => isSpaceChar c
      | none => false
    let i0 := (pos - 1).toNat
    let i1 := whileDec isWs i0
    let i2 :=
      if isW i1 then whileDecPred isW i1
      else whileDecPred (fun j => !isW j && !isWs j) i1
    (i2 : Int)

/-- `nextWordBoundary(buf, pos)`. -/
def nextWordBoundary (buf : String) (pos : Int) : Int :=
  let cs := buf.toList
  let len := cs.length
  if pos ≥ (len : Int) then (len : Int)
  else
    let isW := fun (j : Nat) =>
      match cs.get? j with
      | some c => isWordChar c
      | none => true
    let isWs := fun (j : Nat) =>
      match cs.get? j with
      | some c => isSpaceChar c
      | none => false
    let i0 := pos.toNat
    let i1 :=
      if isW i0 then whileInc isW len len i0
      else if !isWs i0 then whileInc (fun j => !isW j && !isWs j) len len i0
      else i0
    (whileInc isWs len len i1 : Int)

/-! ## Input handlers (part_003 lines 1336-2261) -/

inductive HandlerOut where
  | st (s : AppState) : HandlerOut
  | exit : HandlerOut
  | submit : HandlerOut

/-- `values[f.name]?.trim()` falsy, with the array-of-objects refinement —
the unfilled-required test shared by `missingRequiredFields` and the tab
handler. -/
def isUnfilledRequired (f : FormField) (values : List (String × String)) : Bool :=
  let val := jsTrim ((olookup values f.name).getD "")
  if val = "" then true
  else if isArrayOfObjects f.prop then
    match jsonParse val with
    | none => true
    | some (.arr xs) => xs.isEmpty
    | some (.str s) => s.length = 0
    | some .null => true
    | some _ => false
  else false

/-- `startEditingField(state, fieldIdx)` (part_003 lines 1518-1560): set up
the kind-specific initial editor state.  An invalid index (on which the
source's `!` assertion would throw) leaves the state unchanged. -/
def startEditingField (env : Env) (state : AppState) (fieldIdx : Int) : AppState :=
  match getI state.fields fieldIdx with
  | none => state
  | some field =>
    if isArrayOfObjects field.prop then
      let items := parsedArrayDraft state.formValues field.name
      { state with formEditing := true, formEditFieldIdx := fieldIdx,
                   formEnumCursor := (items.length : Int) }
    else
      match dateFieldFormat field.prop with
      | some dateFmt =>
        let existing := (olookup state.formValues field.name).getD ""
        let parts := (parseDateParts existing dateFmt).getD (env.today dateFmt)
        { state with formEditing := true, formEditFieldIdx := fieldIdx,
                     dateParts := parts, datePartCursor := 0 }
      | none =>
        let enumValues := field.prop.enumVals <|> field.prop.items.bind (·.enumVals)
        let isBool := field.prop.type = some "boolean"
        let isArrayEnum := !isArrayOfObjects field.prop &&
          field.prop.type = some "array" && (field.prop.items.bind (·.enumVals)).isSome
        if isArrayEnum && enumValues.isSome then
          let evs := enumValues.getD []
          let curVal := (olookup state.formValues field.name).getD ""
          let selected : Finset Int :=
            if curVal = "" then ∅
            else ((jsSplitChar curVal ',').map jsTrim).foldl
              (fun acc p =>
                let idx := idxOf evs p
                if idx ≥ 0 then insert idx acc else acc) ∅
          { state with formEditing := true, formEditFieldIdx := fieldIdx,
                       formEnumCursor := 0, formEnumSelected := selected }
        else if enumValues.isSome || isBool then
          let choices := if isBool then ["true", "false"] else enumValues.getD []
          let curVal := (olookup state.formValues field.name).getD ""
          let idx := idxOf choices curVal
          { state with formEditing := true, formEditFieldIdx := fieldIdx,
                       formEnumCursor := if idx ≥ 0 then idx else 0 }
        else if field.prop.type = some "array" &&
            !(field.prop.items.bind (·.enumVals)).isSome then
          let existing := (olookup state.formValues field.name).getD ""
          let itemCount : Int :=
            if existing = "" then 0
            else ((((jsSplitChar existing ',').map jsTrim).filter (· ≠ "")).length : Int)
          { state with formEditing := true, formEditFieldIdx := fieldIdx,
                       formInputBuf := "", formInputCursorPos := 0,
                       formEnumCursor := itemCount }
        else
          let editBuf := (olookup state.formValues field.name).getD ""
          { state with formEditing := true, formEditFieldIdx := fieldIdx,
                       formInputBuf := editBuf,
                       formInputCursorPos := (editBuf.length : Int) }

/-- The form-construction block of the commands-view enter handler
(part_003 lines 1416-1487): resolve the tool's properties into fields,
initialize every draft to `""`, and either invoke immediately (no fields),
or open the form, auto-editing the first blank required field. -/
def commandEnterFormState (env : Env) (s : AppState) (tool : ToolDef) : AppState :=
  let properties := tool.inputSchema.properties.getD []
  let requiredSet := tool.inputSchema.required.getD []
  let defs := tool.inputSchema.defs
  let fields : List FormField := properties.map fun p =>
    { name := p.1, prop := resolveProperty p.2 defs, required := requiredSet.contains p.1 }
  let nameColWidth :=
    fields.foldl (fun m f => max m ((f.name.length : Int) + if f.required then 2 else 0)) 6 + 1
  let formValues := fields.foldl (fun acc f => oupsert acc f.name "") []
  if fields.isEmpty then
    { s with view := .loading, selectedTool := some tool, fields := fields,
             nameColWidth := nameColWidth, formValues := formValues,
             formSearchQuery := "", formSearchCursorPos := 0,
             formFilteredIndices := [], formListCursor := 0, formScrollTop := 0,
             formEditFieldIdx := -1, formEditing := false, formInputBuf := "",
             formInputCursorPos := 0, formEnumCursor := 0, formEnumSelected := ∅,
             formShowRequired := false, formShowOptional := false, formStack := [] }
  else
    let filteredIndices := filterFormFields fields ""
    let firstBlankRequired := findIdxI fields fun f =>
      f.required && jsTrim ((olookup formValues f.name).getD "") = ""
    let baseState :=
      { s with view := .form, selectedTool := some tool, fields := fields,
               nameColWidth := nameColWidth, formValues := formValues,
               formSearchQuery := "", formSearchCursorPos := 0,
               formFilteredIndices := filteredIndices,
               formListCursor := defaultFormCursor fields filteredIndices formValues,
               formScrollTop := 0, formEditFieldIdx := -1, formEditing := false,
               formInputBuf := "", formInputCursorPos := 0, formEnumCursor := 0,
               formEnumSelected := ∅, formShowRequired := false,
               formShowOptional := false, formStack := [] }
    if firstBlankRequired ≥ 0 then startEditingField env baseState firstBlankRequired
    else baseState

def headCharGe32 (r : String) : Bool :=
  match r.toList with
  | c :: _ => 32 ≤ c.toNat
  | [] => false

/-- `s.slice(0, a) + text + s.slice(a)` insertion at a nonnegative cursor. -/
def insertAt (s : String) (pos : Int) (text : String) : String :=
  sliceN s 0 pos.toNat ++ text ++ sliceFrom s pos.toNat

/-- `handleCommandListInput(state, key)` (part_003 lines 1336-1516). -/
def handleCommandListInput (env : Env) (state : AppState) (key : KeyEvent) :
    HandlerOut :=
  let items := state.filteredItems
  let selectable := selectableIndices items
  let d := getBoxDimensions env
  let logoUsed := env.logoLen + 3
  let listHeight := max 1 (d.contentHeight - logoUsed)
  if key.name = "escape" || (key.ctrl && key.name = "c") then
    if state.searchQuery ≠ "" then
      let filtered := filterCommands state.tools ""
      let sel := selectableIndices filtered
      .st { state with searchQuery := "", searchCursorPos := 0,
                       filteredItems := filtered, listCursor := sel.head?.getD 0,
                       listScrollTop := 0, quitConfirm := false }
    else if state.quitConfirm then .exit
    else .st { state with quitConfirm := true }
  else if key.name = "q" && !key.ctrl && state.searchQuery = "" then
    if state.quitConfirm then .exit else .st { state with quitConfirm := true }
  else
    let s := if state.quitConfirm then { state with quitConfirm := false } else state
    if key.name = "left" then
      .st { s with searchCursorPos := max 0 (s.searchCursorPos - 1) }
    else if key.name = "right" then
      .st { s with searchCursorPos := min (s.searchQuery.length : Int) (s.searchCursorPos + 1) }
    else if key.name = "up" then
      let curIdx := idxOf selectable s.listCursor
      if curIdx > 0 then
        let next := (getI selectable (curIdx - 1)).getD s.listCursor
        let scroll := if next < s.listScrollTop then next else s.listScrollTop
        .st { s with listCursor := next, listScrollTop := scroll }
      else .st s
    else if key.name = "down" then
      let curIdx := idxOf selectable s.listCursor
      if curIdx < (selectable.length : Int) - 1 then
        let next := (getI selectable (curIdx + 1)).getD s.listCursor
        let scroll :=
          if next ≥ s.listScrollTop + listHeight then next - listHeight + 1
          else s.listScrollTop
        .st { s with listCursor := next, listScrollTop := scroll }
      else .st s
    else if key.name = "pageup" then
      let curIdx := idxOf selectable s.listCursor
      let next := (getI selectable (max 0 (curIdx - listHeight))).getD s.listCursor
      let scroll := if next < s.listScrollTop then next else s.listScrollTop
      .st { s with listCursor := next, listScrollTop := scroll }
    else if key.name = "pagedown" then
      let curIdx := idxOf selectable s.listCursor
      let next :=
        (getI selectable (min ((selectable.length : Int) - 1) (curIdx + listHeight))).getD
          s.listCursor
      let scroll :=
        if next ≥ s.listScrollTop + listHeight then next - listHeight + 1
        else s.listScrollTop
      .st { s with listCursor := next, listScrollTop := scroll }
    else if key.name = "return" then
      match getI items s.listCursor with
      | some item =>
        if !item.isSeparator then
          match s.tools.find? (fun t => t.name = item.value) with
          | some tool => .st (commandEnterFormState env s tool)
          | none => .st s
        else .st s
      | none => .st s
    else if key.name = "backspace" then
      if s.searchCursorPos > 0 then
        let newQuery :=
          sliceN s.searchQuery 0 (s.searchCursorPos - 1).toNat
            ++ sliceFrom s.searchQuery s.searchCursorPos.toNat
        let filtered := filterCommands s.tools newQuery
        let sel := selectableIndices filtered
        .st { s with searchQuery := newQuery, searchCursorPos := s.searchCursorPos - 1,
                     filteredItems := filtered, listCursor := sel.head?.getD 0,
                     listScrollTop := 0 }
      else .st s
    else if key.name = "paste" ||
        (!key.ctrl && key.raw.length = 1 && headCharGe32 key.raw) then
      let text := if key.name = "paste" then stripCtl key.raw else key.raw
      if text ≠ "" then
        let newQuery := insertAt s.searchQuery s.searchCursorPos text
        let filtered := filterCommands s.tools newQuery
        let sel := selectableIndices filtered
        .st { s with searchQuery := newQuery,
                     searchCursorPos := s.searchCursorPos + (text.length : Int),
                     filteredItems := filtered, listCursor := sel.head?.getD 0,
                     listScrollTop := 0 }
      else .st s
    else .st s

/-- `commandListReset(tools)` (part_003 lines 1595-1603), applied to a
state (the source spreads the partial record over it). -/
def commandListReset (tools : List ToolDef) (s : AppState) : AppState :=
  let filteredItems := buildCommandList tools
  let sel := selectableIndices filteredItems
  { s with view := .commands, selectedTool := none, searchQuery := "",
           searchCursorPos := 0, filteredItems := filteredItems,
           listCursor := sel.head?.getD 0, listScrollTop := 0 }

/-- `f.prop.default != null ? String(f.prop.default) : ""`: the initial
draft of a fresh sub-form field. -/
def defaultDraftOf (f : FormField) : String :=
  match f.prop.default with
  | some .null | none => ""
  | some d => jsToString d

/-- The sub-form field list derived from an array-of-objects field's item
schema (part_003 lines 1906-1914). -/
def subFieldsOf (state : AppState) (field : FormField) : List FormField :=
  let itemSchema :=
    (field.prop.items).getD (.mk none none none none none none none none none none)
  let defs := state.selectedTool.bind fun t => t.inputSchema.defs
  let subProperties := itemSchema.properties.getD []
  let subRequired := itemSchema.required.getD []
  subProperties.map fun p =>
    { name := p.1, prop := resolveProperty p.2 defs, required := subRequired.contains p.1 }

/-- The sub-form push block of the array-of-objects editor (part_003 lines
1903-1961): freeze the parent on the stack and enter a fresh or
pre-populated child form.  A pre-populated draft comes from the existing
item's value: `null`/missing fall back to the stringified schema default or
`""`, arrays are JSON-stringified, everything else is `String(v)`. -/
def enterSubForm (state : AppState) (field : FormField)
    (items : List Json) (formEnumCursor : Int) : AppState :=
  let editingExisting := formEnumCursor < (items.length : Int)
  let subFields := subFieldsOf state field
  let defaultDraft := defaultDraftOf
  let subValues :=
    if editingExisting then
      let existingItem : String → Option Json :=
        match getI items formEnumCursor with
        | some (.obj itemFields) => fun n => olookup itemFields n
        | _ => fun _ => none
      subFields.foldl
        (fun acc f =>
          match existingItem f.name with
          | none | some .null => oupsert acc f.name (defaultDraft f)
          | some (.arr xs) => oupsert acc f.name (jsonStringify (.arr xs))
          | some v => oupsert acc f.name (jsToString v))
        []
    else subFields.foldl (fun acc f => oupsert acc f.name (defaultDraft f)) []
  let subFiltered := filterFormFields subFields ""
  let toolTitle :=
    match state.selectedTool with
    | some t => humanLabel t.name (toolGroupOf t)
    | none => ""
  { state with
    formStack := state.formStack ++
      [{ parentFieldName := field.name, parentFields := state.fields,
         parentValues := state.formValues, parentNameColWidth := state.nameColWidth,
         parentTitle := toolTitle,
         editIndex := if editingExisting then formEnumCursor else -1 }]
    fields := subFields
    nameColWidth :=
      subFields.foldl (fun m f => max m ((f.name.length : Int) + if f.required then 2 else 0)) 6 + 1
    formValues := subValues
    formEditing := false
    formEditFieldIdx := -1
    formSearchQuery := ""
    formSearchCursorPos := 0
    formFilteredIndices := subFiltered
    formListCursor := defaultFormCursor subFields subFiltered subValues
    formScrollTop := 0
    formShowRequired := false
    formShowOptional := false
    formEnumCursor := 0
    formEnumSelected := ∅
    formInputBuf := ""
    formInputCursorPos := 0 }

/-- Characters stripped by `/[\x00-\x09\x0b\x0c\x0e-\x1f\x7f]/g` (keeps
`\n` and `\r`, unlike `stripCtl`). -/
def stripCtlKeepNl (s : String) : String :=
  String.mk (s.toList.filter fun c =>
    !(c.toNat ≤ 0x09 || c.toNat = 0x0b || c.toNat = 0x0c ||
      (0x0e ≤ c.toNat && c.toNat ≤ 0x1f) || c.toNat = 0x7f))

/-- Sum of `lines[i].length + 1` over `i < k` (cursor offset of line `k`). -/
def sumLineLens (lines : List String) (k : Nat) : Int :=
  (lines.take k).foldl (fun a l => a + (l.length : Int) + 1) 0

/-- The cursor-to-(line, column) walk of the text editor's up/down keys. -/
def lineColWalkGo : List String → Int → Int → (Int × Int)
  | [], rem, line => (line, rem)
  | l :: rest, rem, line =>
    if rem ≤ (l.length : Int) then (line, rem)
    else lineColWalkGo rest (rem - (l.length : Int) - 1) (line + 1)

/-- `handleFormEditInput(state, key)` (part_003 lines 1862-2199).  An
out-of-range `formEditFieldIdx` (the source would throw on its `!`
assertion) leaves the state unchanged. -/
def handleFormEditInput (env : Env) (state : AppState) (key : KeyEvent) :
    HandlerOut :=
  match getI state.fields state.formEditFieldIdx with
  | none => .st state
  | some field =>
    let fields := state.fields
    let formInputBuf := state.formInputBuf
    let formEnumCursor := state.formEnumCursor
    let formValues := state.formValues
    let dateFmt := dateFieldFormat field.prop
    let enumValues := field.prop.enumVals <|> field.prop.items.bind (·.enumVals)
    let isBool := field.prop.type = some "boolean"
    let resetPalette := fun (updatedValues : Option (List (String × String)))
        (st : AppState) =>
      let f := filterFormFields fields ""
      { st with formSearchQuery := "", formSearchCursorPos := 0,
                formFilteredIndices := f,
                formListCursor := defaultFormCursor fields f (updatedValues.getD formValues),
                formScrollTop := 0, formShowRequired := false, formShowOptional := false }
    if key.name = "escape" then
      let isArrayEnum :=
        field.prop.type = some "array" && (field.prop.items.bind (·.enumVals)).isSome
      if isArrayEnum && enumValues.isSome then
        let evs := enumValues.getD []
        let selected := (state.formEnumSelected.sort (· ≤ ·)).map fun i =>
          (getI evs i).getD ""
        let val := String.intercalate ", " selected
        let newValues := oupsert formValues field.name val
        .st (resetPalette (some newValues)
          { state with formEditing := false, formEditFieldIdx := -1,
                       formValues := newValues, formEnumSelected := ∅ })
      else
        .st (resetPalette none
          { state with formEditing := false, formEditFieldIdx := -1,
                       formInputBuf := "", formInputCursorPos := 0 })
    else if key.ctrl && key.name = "c" then .submit
    else if isArrayOfObjects field.prop then
      let items := parsedArrayDraft formValues field.name
      let total := (items.length : Int) + 1
      if key.name = "up" then
        .st { state with formEnumCursor :=
          if formEnumCursor > 0 then formEnumCursor - 1 else total - 1 }
      else if key.name = "down" then
        .st { state with formEnumCursor :=
          if formEnumCursor < total - 1 then formEnumCursor + 1 else 0 }
      else if key.name = "return" then
        .st (enterSubForm state field items formEnumCursor)
      else if key.name = "backspace" && formEnumCursor < (items.length : Int) then
        let newItems := removeAt items formEnumCursor
        let newValues := oupsert formValues field.name (jsonStringify (.arr newItems))
        let newCursor := min formEnumCursor (newItems.length : Int)
        .st { state with formValues := newValues, formEnumCursor := newCursor }
      else .st state
    else
      match dateFmt with
      | some fmt =>
        let maxPart := datePartCount fmt - 1
        if key.name = "left" then
          .st { state with datePartCursor := max 0 (state.datePartCursor - 1) }
        else if key.name = "right" then
          .st { state with datePartCursor := min maxPart (state.datePartCursor + 1) }
        else if key.name = "up" then
          .st { state with
            dateParts := adjustDatePart state.dateParts state.datePartCursor 1 fmt }
        else if key.name = "down" then
          .st { state with
            dateParts := adjustDatePart state.dateParts state.datePartCursor (-1) fmt }
        else if key.name = "return" then
          let val := datePartsToString state.dateParts fmt
          let newValues := oupsert formValues field.name val
          .st (resetPalette (some newValues)
            { state with formEditing := false, formEditFieldIdx := -1,
                         formValues := newValues })
        else if key.name = "t" then
          .st { state with dateParts := env.today fmt, datePartCursor := 0 }
        else if key.name = "backspace" then
          let newValues := oupsert formValues field.name ""
          .st (resetPalette (some newValues)
            { state with formEditing := false, formEditFieldIdx := -1,
                         formValues := newValues })
        else .st state
      | none =>
        let isArrayEnum :=
          field.prop.type = some "array" && (field.prop.items.bind (·.enumVals)).isSome
        if isArrayEnum && enumValues.isSome then
          let evs := enumValues.getD []
          if key.name = "up" then
            .st { state with formEnumCursor :=
              if formEnumCursor ≤ 0 then (evs.length : Int) - 1 else formEnumCursor - 1 }
          else if key.name = "down" then
            .st { state with formEnumCursor :=
              if formEnumCursor ≥ (evs.length : Int) - 1 then 0 else formEnumCursor + 1 }
          else if key.name = " " || key.raw = " " then
            let next :=
              if formEnumCursor ∈ state.formEnumSelected then
                state.formEnumSelected.erase formEnumCursor
              else insert formEnumCursor state.formEnumSelected
            .st { state with formEnumSelected := next }
          else if key.name = "return" then
            let next := insert formEnumCursor state.formEnumSelected
            let selected := (next.sort (· ≤ ·)).map fun i => (getI evs i).getD ""
            let val := String.intercalate ", " selected
            let newValues := oupsert formValues field.name val
            .st (resetPalette none
              { state with formEditing := false, formEditFieldIdx := -1,
                           formValues := newValues, formEnumSelected := ∅ })
          else .st state
        else if enumValues.isSome || isBool then
          let choices := if isBool then ["true", "false"] else enumValues.getD []
          if key.name = "up" then
            .st { state with formEnumCursor :=
              if formEnumCursor ≤ 0 then (choices.length : Int) - 1 else formEnumCursor - 1 }
          else if key.name = "down" then
            .st { state with formEnumCursor :=
              if formEnumCursor ≥ (choices.length : Int) - 1 then 0 else formEnumCursor + 1 }
          else if key.name = "return" then
            match getI choices formEnumCursor with
            | some val =>
              let newValues := oupsert formValues field.name val
              .st (resetPalette (some newValues)
                { state with formEditing := false, formEditFieldIdx := -1,
                             formValues := newValues })
            | none => .st state
          else .st state
        else if field.prop.type = some "array" &&
            !(field.prop.items.bind (·.enumVals)).isSome then
          let existing := (olookup formValues field.name).getD ""
          let items :=
            if existing = "" then []
            else ((jsSplitChar existing ',').map jsTrim).filter (· ≠ "")
          let inputIdx := (items.length : Int)
          let total := inputIdx + 1
          if key.name = "up" then
            .st { state with formEnumCursor :=
              if formEnumCursor > 0 then formEnumCursor - 1 else total - 1 }
          else if key.name = "down" then
            .st { state with formEnumCursor :=
              if formEnumCursor < total - 1 then formEnumCursor + 1 else 0 }
          else if formEnumCursor < inputIdx then
            if key.name = "return" then
              match getI items formEnumCursor with
              | some editVal =>
                let newItems := removeAt items formEnumCursor
                let newValues :=
                  oupsert formValues field.name (String.intercalate ", " newItems)
                .st { state with formValues := newValues, formInputBuf := editVal,
                                 formInputCursorPos := (editVal.length : Int),
                                 formEnumCursor := (newItems.length : Int) }
              | none => .st state
            else if key.name = "backspace" then
              let newItems := removeAt items formEnumCursor
              let newValues :=
                oupsert formValues field.name (String.intercalate ", " newItems)
              let newCursor := min formEnumCursor (newItems.length : Int)
              .st { state with formValues := newValues, formEnumCursor := newCursor }
            else .st state
          else if key.name = "paste" then
            let text := String.mk (key.raw.toList.filter (· ≠ '\n'))
            .st { state with formInputBuf := formInputBuf ++ text,
                             formInputCursorPos :=
                               (formInputBuf.length : Int) + (text.length : Int) }
          else if key.name = "return" then
            if jsTrim formInputBuf ≠ "" then
              let items2 := items ++ [jsTrim formInputBuf]
              let newValues :=
                oupsert formValues field.name (String.intercalate ", " items2)
              .st { state with formValues := newValues, formInputBuf := "",
                               formInputCursorPos := 0,
                               formEnumCursor := (items2.length : Int) }
            else
              let newValues :=
                oupsert formValues field.name (String.intercalate ", " items)
              .st (resetPalette (some newValues)
                { state with formEditing := false, formEditFieldIdx := -1,
                             formValues := newValues })
          else if key.name = "backspace" then
            if formInputBuf ≠ "" then
              .st { state with formInputBuf := dropLast1 formInputBuf,
                               formInputCursorPos := (formInputBuf.length : Int) - 1 }
            else .st state
          else if !key.ctrl && key.name ≠ "escape" && !(strHasPfx "\x1b" key.raw) then
            let clean := stripCtl key.raw
            if clean ≠ "" then
              .st { state with formInputBuf := formInputBuf ++ clean,
                               formInputCursorPos :=
                                 (formInputBuf.length : Int) + (clean.length : Int) }
            else .st state
          else .st state
        else
          let pos := state.formInputCursorPos
          if key.name = "paste" then
            .st { state with formInputBuf := insertAt formInputBuf pos key.raw,
                             formInputCursorPos := pos + (key.raw.length : Int) }
          else if key.raw = "\n" || (key.name = "return" && key.shift) then
            .st { state with formInputBuf := insertAt formInputBuf pos "\n",
                             formInputCursorPos := pos + 1 }
          else if key.name = "return" then
            let newValues := oupsert formValues field.name formInputBuf
            .st (resetPalette (some newValues)
              { state with formEditing := false, formEditFieldIdx := -1,
                           formInputCursorPos := 0, formValues := newValues })
          else if key.name = "left" then
            .st { state with formInputCursorPos := max 0 (pos - 1) }
          else if key.name = "right" then
            let np := min (formInputBuf.length : Int) (pos + 1)
            .st { state with formInputCursorPos := np }
          else if key.name = "wordLeft" then
            .st { state with formInputCursorPos := prevWordBoundary formInputBuf pos }
          else if key.name = "wordRight" then
            .st { state with formInputCursorPos := nextWordBoundary formInputBuf pos }
          else if key.name = "wordBackspace" then
            let boundary := prevWordBoundary formInputBuf pos
            let nb := sliceN formInputBuf 0 boundary.toNat ++ sliceFrom formInputBuf pos.toNat
            .st { state with formInputBuf := nb, formInputCursorPos := boundary }
          else if key.name = "up" then
            let lines := jsSplitChar formInputBuf '\n'
            let lc := lineColWalkGo lines pos 0
            if lc.1 > 0 then
              let prevLen :=
                match getI lines (lc.1 - 1) with
                | some l => (l.length : Int)
                | none => 0
              let col := min lc.2 prevLen
              .st { state with formInputCursorPos := sumLineLens lines (lc.1 - 1).toNat + col }
            else .st state
          else if key.name = "down" then
            let lines := jsSplitChar formInputBuf '\n'
            let lc := lineColWalkGo lines pos 0
            if lc.1 < (lines.length : Int) - 1 then
              let nextLen :=
                match getI lines (lc.1 + 1) with
                | some l => (l.length : Int)
                | none => 0
              let col := min lc.2 nextLen
              .st { state with formInputCursorPos := sumLineLens lines (lc.1 + 1).toNat + col }
            else .st state
          else if key.name = "backspace" then
            if pos > 0 then
              let nb := sliceN formInputBuf 0 (pos - 1).toNat ++ sliceFrom formInputBuf pos.toNat
              .st { state with formInputBuf := nb, formInputCursorPos := pos - 1 }
            else .st state
          else if !key.ctrl && key.name ≠ "escape" && !(strHasPfx "\x1b" key.raw) then
            let clean := stripCtlKeepNl key.raw
            if clean ≠ "" then
              .st { state with formInputBuf := insertAt formInputBuf pos clean,
                               formInputCursorPos := pos + (clean.length : Int) }
            else .st state
          else .st state

/-- The cursor-cycling loop of the palette's up/down keys: step at most
`fuel` times (the filtered length in the source), stopping at the first
navigable position. -/
def cycleNavigate (stepF : Int → Int) (nav : Int → Bool) : Nat → Int → Int
  | 0, cur => cur
  | fuel + 1, cur =>
    let nxt := stepF cur
    if nav nxt then nxt else cycleNavigate stepF nav fuel nxt

/-- `handleFormPaletteInput(state, key)` (part_003 lines 1669-1860): the
sub-form palette handler. -/
def handleFormPaletteInput (env : Env) (state : AppState) (key : KeyEvent) :
    HandlerOut :=
  let fields := state.fields
  let filtered := state.formFilteredIndices
  let formListCursor := state.formListCursor
  let formSearchQuery := state.formSearchQuery
  let d := getBoxDimensions env
  let headerUsed : Int := 6 +
    (match state.selectedTool.bind (·.description) with
     | some desc => ((wrapText desc (d.innerWidth - 4)).length : Int)
     | none => 0)
  let listHeight := max 1 (d.contentHeight - headerUsed - 8)
  if key.ctrl && key.name = "c" then .submit
  else if key.name = "escape" then
    if formSearchQuery ≠ "" then
      let newFiltered := filterFormFields fields ""
      .st { state with formSearchQuery := "", formSearchCursorPos := 0,
                       formFilteredIndices := newFiltered,
                       formListCursor := defaultFormCursor fields newFiltered state.formValues,
                       formScrollTop := 0 }
    else
      match state.formStack.getLast? with
      | some entry =>
        let stack := state.formStack.dropLast
        let parentFiltered := filterFormFields entry.parentFields ""
        let parentFieldIdx :=
          findIdxI entry.parentFields fun f => f.name = entry.parentFieldName
        let items := parsedArrayDraft entry.parentValues entry.parentFieldName
        .st { state with
          formStack := stack
          fields := entry.parentFields
          nameColWidth := entry.parentNameColWidth
          formValues := entry.parentValues
          formEditing := true
          formEditFieldIdx := parentFieldIdx
          formEnumCursor := (items.length : Int)
          formEnumSelected := ∅
          formSearchQuery := ""
          formSearchCursorPos := 0
          formFilteredIndices := parentFiltered
          formListCursor := defaultFormCursor entry.parentFields parentFiltered entry.parentValues
          formScrollTop := 0
          formShowRequired := false
          formShowOptional := false
          formInputBuf := ""
          formInputCursorPos := 0 }
      | none => .st (commandListReset state.tools state)
  else if key.name = "tab" then
    let unfilled := filtered.enum.filterMap fun p =>
      let listPos := ((p.1 : Nat) : Int)
      let idx := p.2
      if idx < 0 || idx ≥ (fields.length : Int) then none
      else
        match getI fields idx with
        | some f =>
          if f.required && isUnfilledRequired f state.formValues then
            some (idx, listPos)
          else none
        | none => none
    match unfilled with
    | [] =>
      let execPos := idxOf filtered (-1)
      if execPos ≥ 0 then .st { state with formListCursor := execPos } else .st state
    | u0 :: _ =>
      let target := (unfilled.find? fun u => u.2 > formListCursor).getD u0
      let paramItems := filtered.filter (· ≠ -1)
      let scroll0 := state.formScrollTop
      let scroll :=
        if target.1 ≥ 0 then
          let posInParams := idxOf paramItems target.1
          let s1 := if posInParams < scroll0 then posInParams else scroll0
          if posInParams ≥ s1 + listHeight then posInParams - listHeight + 1 else s1
        else scroll0
      .st { state with formListCursor := target.2, formScrollTop := scroll }
  else
    let optionalHere := fun (idx : Int) =>
      idx ≥ 0 && idx < (fields.length : Int) &&
        (match getI fields idx with
         | some f => !f.required
         | none => false)
    let optionalExists := filtered.any optionalHere
    if key.raw = "o" && !key.ctrl && formSearchQuery = "" && optionalExists then
      let newShow := !state.formShowOptional
      if !newShow then
        match getI filtered formListCursor with
        | some curIdx =>
          if optionalHere curIdx then
            let execPos := idxOf filtered (-1)
            .st { state with formShowOptional := false,
                             formListCursor := if execPos ≥ 0 then execPos else 0 }
          else .st { state with formShowOptional := newShow }
        | none => .st { state with formShowOptional := newShow }
      else .st { state with formShowOptional := newShow }
    else if key.name = "left" then
      .st { state with formSearchCursorPos := max 0 (state.formSearchCursorPos - 1) }
    else if key.name = "right" then
      let np := min (formSearchQuery.length : Int) (state.formSearchCursorPos + 1)
      .st { state with formSearchCursorPos := np }
    else
      let isNavigable := fun (listPos : Int) =>
        match getI filtered listPos with
        | none => false
        | some idx =>
          if idx = -1 then true
          else if !state.formShowOptional && state.formSearchQuery = "" &&
              optionalHere idx then false
          else true
      if key.name = "up" then
        let next := cycleNavigate
          (fun cur => if cur > 0 then cur - 1 else (filtered.length : Int) - 1)
          isNavigable filtered.length formListCursor
        let itemIdx := (getI filtered next).getD 0
        let scroll0 := state.formScrollTop
        let scroll :=
          if itemIdx ≠ -1 then
            let paramItems := filtered.filter (· ≠ -1)
            let posInParams := idxOf paramItems itemIdx
            let s1 := if posInParams < scroll0 then posInParams else scroll0
            if next > formListCursor then max 0 ((paramItems.length : Int) - listHeight)
            else s1
          else scroll0
        .st { state with formListCursor := next, formScrollTop := scroll }
      else if key.name = "down" then
        let next := cycleNavigate
          (fun cur => if cur < (filtered.length : Int) - 1 then cur + 1 else 0)
          isNavigable filtered.length formListCursor
        let itemIdx := (getI filtered next).getD 0
        let scroll0 := state.formScrollTop
        let scroll :=
          if itemIdx ≠ -1 then
            let paramItems := filtered.filter (· ≠ -1)
            let posInParams := idxOf paramItems itemIdx
            let s1 :=
              if posInParams ≥ scroll0 + listHeight then posInParams - listHeight + 1
              else scroll0
            if next < formListCursor then 0 else s1
          else if next < formListCursor then 0
          else scroll0
        .st { state with formListCursor := next, formScrollTop := scroll }
      else if key.name = "return" then
        match getI filtered formListCursor with
        | some highlightedIdx =>
          if highlightedIdx = -1 then
            if (missingRequiredFields fields state.formValues).isEmpty then
              if state.formStack.length > 0 then .st (popFormStack state)
              else .submit
            else .st { state with formShowRequired := true }
          else if highlightedIdx ≥ 0 && highlightedIdx < (fields.length : Int) then
            .st (startEditingField env state highlightedIdx)
          else .st state
        | none => .st state
      else if key.name = "backspace" then
        if state.formSearchCursorPos > 0 then
          let newQuery :=
            sliceN formSearchQuery 0 (state.formSearchCursorPos - 1).toNat
              ++ sliceFrom formSearchQuery state.formSearchCursorPos.toNat
          let newFiltered := filterFormFields fields newQuery
          .st { state with formSearchQuery := newQuery,
                           formSearchCursorPos := state.formSearchCursorPos - 1,
                           formFilteredIndices := newFiltered, formListCursor := 0,
                           formScrollTop := 0 }
        else .st state
      else if key.name = "paste" ||
          (!key.ctrl && key.raw.length = 1 && headCharGe32 key.raw) then
        let text := if key.name = "paste" then stripCtl key.raw else key.raw
        if text ≠ "" then
          let newQuery := insertAt formSearchQuery state.formSearchCursorPos text
          let newFiltered := filterFormFields fields newQuery
          .st { state with formSearchQuery := newQuery,
                           formSearchCursorPos :=
                             state.formSearchCursorPos + (text.length : Int),
                           formFilteredIndices := newFiltered, formListCursor := 0,
                           formScrollTop := 0 }
        else .st state
      else .st state

/-- `handleCommandBuilderReadyInput(state, key)` (part_003 lines 1605-1641). -/
def handleCommandBuilderReadyInput (env : Env) (state : AppState) (key : KeyEvent) :
    HandlerOut :=
  if key.name = "escape" || (key.ctrl && key.name = "c") then
    .st (commandListReset state.tools state)
  else if key.name = "return" then
    if (missingRequiredFields state.fields state.formValues).isEmpty then .submit
    else
      let nextBlank := findIdxI state.fields fun f =>
        f.required && jsTrim ((olookup state.formValues f.name).getD "") = ""
      if nextBlank ≥ 0 then .st (startEditingField env state nextBlank)
      else .st state
  else if key.name = "tab" then
    if state.fields.any (fun f => !f.required) then
      .st { state with formShowOptional := true, formListCursor := 0 }
    else .st state
  else if key.name = "backspace" then
    let lastSet := ((List.range state.fields.length).reverse.find? fun i =>
      match state.fields.get? i with
      | some f => jsTrim ((olookup state.formValues f.name).getD "") ≠ ""
      | none => false)
    match lastSet with
    | some i => .st (startEditingField env state (i : Int))
    | none => .st state
  else .st state

/-- `handleOptionalPickerInput(state, key)` (part_003 lines 1643-1667). -/
def handleOptionalPickerInput (env : Env) (state : AppState) (key : KeyEvent) :
    HandlerOut :=
  let optionalFields := (state.fields.enum.filter fun p => !p.2.required)
  if key.name = "escape" || (key.ctrl && key.name = "c") then
    .st { state with formShowOptional := false }
  else if key.name = "up" then
    let nc :=
      if state.formListCursor > 0 then state.formListCursor - 1
      else (optionalFields.length : Int) - 1
    .st { state with formListCursor := nc }
  else if key.name = "down" then
    let nc :=
      if state.formListCursor < (optionalFields.length : Int) - 1 then
        state.formListCursor + 1
      else 0
    .st { state with formListCursor := nc }
  else if key.name = "return" then
    match getI optionalFields state.formListCursor with
    | some p =>
      .st (startEditingField env { state with formShowOptional := false } ((p.1 : Nat) : Int))
    | none => .st state
  else .st state

/-- `handleFormInput(state, key)` (part_003 lines 1562-1593): dispatch to
the sub-form handlers or the command-builder handlers, with auto-advance to
the next blank required field after a confirmed (non-escape) edit. -/
def handleFormInput (env : Env) (state : AppState) (key : KeyEvent) : HandlerOut :=
  if state.formStack.length > 0 then
    if state.formEditing then handleFormEditInput env state key
    else handleFormPaletteInput env state key
  else if state.formEditing then
    match handleFormEditInput env state key with
    | .submit => .submit
    | .exit => .exit
    | .st result =>
      if !result.formEditing && state.formEditing then
        if key.name ≠ "escape" then
          let nextBlank := findIdxI result.fields fun f =>
            f.required && jsTrim ((olookup result.formValues f.name).getD "") = ""
          if nextBlank ≥ 0 then .st (startEditingField env result nextBlank)
          else .st result
        else .st result
      else .st result
  else if state.formShowOptional then handleOptionalPickerInput env state key
  else handleCommandBuilderReadyInput env state key

def EMPTY_LIST_SENTINEL : String := "\x00__EMPTY_LIST__"

/-- `handleResultsInput(state, key)` (part_003 lines 2201-2261). -/
def handleResultsInput (env : Env) (state : AppState) (key : KeyEvent) :
    HandlerOut :=
  let d := getBoxDimensions env
  let contentLines :=
    jsSplitChar (if state.error ≠ "" then state.error else state.result) '\n'
  let visibleCount := max 1 (d.contentHeight - 3)
  if key.ctrl && key.name = "c" then
    if state.quitConfirm then .exit else .st { state with quitConfirm := true }
  else if key.name = "q" && !key.ctrl then
    if state.quitConfirm then .exit else .st { state with quitConfirm := true }
  else
    let s := if state.quitConfirm then { state with quitConfirm := false } else state
    if key.name = "return" || key.name = "escape" then
      let isEmpty :=
        s.error = "" && s.result ≠ EMPTY_LIST_SENTINEL && jsTrim s.result = ""
      let hasParams := !isEmpty &&
        (match s.selectedTool with
         | some t => (t.inputSchema.properties.getD []).length > 0
         | none => false)
      if hasParams then
        let f := filterFormFields s.fields ""
        .st { s with view := .form, result := "", error := "", resultScroll := 0,
                     resultScrollX := 0, formSearchQuery := "",
                     formSearchCursorPos := 0, formFilteredIndices := f,
                     formListCursor := defaultFormCursor s.fields f s.formValues,
                     formScrollTop := 0, formEditing := false, formEditFieldIdx := -1,
                     formShowRequired := false, formShowOptional := false }
      else
        .st { commandListReset s.tools s with result := "", error := "",
                                              resultScroll := 0, resultScrollX := 0 }
    else if key.name = "up" then
      .st { s with resultScroll := max 0 (s.resultScroll - 1) }
    else if key.name = "down" then
      let ns := min (max 0 ((contentLines.length : Int) - visibleCount)) (s.resultScroll + 1)
      .st { s with resultScroll := ns }
    else if key.name = "left" then
      .st { s with resultScrollX := max 0 (s.resultScrollX - 4) }
    else if key.name = "right" then
      .st { s with resultScrollX := s.resultScrollX + 4 }
    else if key.name = "pageup" then
      .st { s with resultScroll := max 0 (s.resultScroll - visibleCount) }
    else if key.name = "pagedown" then
      let ns := min (max 0 ((contentLines.length : Int) - visibleCount))
        (s.resultScroll + visibleCount)
      .st { s with resultScroll := ns }
    else .st s

/-- `handleInput(state, key)` (part_003 lines 1327-1334); the missing
`loading` case falls to `default: return state`. -/
def handleInput (env : Env) (state : AppState) (key : KeyEvent) : HandlerOut :=
  match state.view with
  | .commands => handleCommandListInput env state key
  | .form => handleFormInput env state key
  | .results => handleResultsInput env state key
  | .loading => .st state

/-- The loop body of `formValuesToArgs` for one field. -/
def argsStep (values : List (String × String)) (args : List (String × Json))
    (field : FormField) : List (String × Json) :=
  let val := (olookup values field.name).getD ""
  if val = "" then args
  else
    let p := field.prop
    if p.type = some "integer" || p.type = some "number" then
      match jsNumber val with
      | some n => oupsert args field.name (.num n)
      | none => args
    else if p.type = some "boolean" then
      oupsert args field.name (.bool (val = "true"))
    else if p.type = some "array" then
      match jsonParse val with
      | some (.arr xs) => oupsert args field.name (.arr xs)
      | some _ => oupsert args field.name (.arr (splitTrim val))
      | none => oupsert args field.name (.arr (splitTrimFilter val))
    else oupsert args field.name (.str val)

/-- `formValuesToArgs(fields, values)` (part_003 lines 2265-2288). -/
def formValuesToArgs (fields : List FormField)
    (values : List (String × String)) : List (String × Json) :=
  fields.foldl (argsStep values) []

/-- The state transformation of `executeTool` (part_003 lines 2385-2418)
with the network outcome abstracted: every return path sets `view` to
`results`, fills `result`/`error`, zeroes the scroll positions, and passes
everything else (including `fields` and `formValues`) through unchanged. -/
def executeToolResult (state : AppState) (result error : String) : AppState :=
  { state with view := .results, result := result, error := error,
               resultScroll := 0, resultScrollX := 0 }

/-! ## Event loop (part_003 lines 2422-2541) -/

inductive AppEvent where
  | key (k : KeyEvent) : AppEvent
  | spinnerTick : AppEvent
  | quitTimerFire : AppEvent
  | toolDone (result error : String) : AppEvent

/-- One iteration of the event loop: `onData` for key events (Ctrl+C exits
before any view handler runs; every other key is dropped while Loading;
`submit` or a handler result in the `loading` view starts the tool call),
the 80 ms spinner timer, the 2 s quit-confirm timer, and completion of the
awaited `executeTool` call with its outcome abstracted.  `none` models loop
termination (`cleanup`). -/
def step (env : Env) (state : AppState) (ev : AppEvent) : Option AppState :=
  match ev with
  | .key k =>
    if k.ctrl && k.name = "c" then none
    else if state.view = .loading then some state
    else
      match handleInput env state k with
      | .exit => none
      | .submit => some { state with view := .loading, spinnerFrame := 0 }
      | .st result =>
        if result.view = .loading then some { result with spinnerFrame := 0 }
        else some result
  | .spinnerTick =>
    if state.view = .loading then
      some { state with spinnerFrame := state.spinnerFrame + 1 }
    else some state
  | .quitTimerFire => some { state with quitConfirm := false }
  | .toolDone r e =>
    if state.view = .loading then some (executeToolResult state r e) else some state

/-- The initial `AppState` of `runApp(tools)` (part_003 lines 2426-2459). -/
def initState (tools : List ToolDef) : AppState :=
  let items := buildCommandList tools
  let selectable := selectableIndices items
  { view := .commands, tools := tools, listCursor := selectable.head?.getD 0,
    listScrollTop := 0, quitConfirm := false, searchQuery := "",
    searchCursorPos := 0, filteredItems := buildCommandList tools,
    selectedTool := none, fields := [], nameColWidth := 6, formSearchQuery := "",
    formSearchCursorPos := 0, formFilteredIndices := [], formListCursor := 0,
    formScrollTop := 0, formEditFieldIdx := -1, formEditing := false,
    formInputBuf := "", formInputCursorPos := 0, formEnumCursor := 0,
    formEnumSelected := ∅, formValues := [], formShowRequired := false,
    formShowOptional := false, formStack := [], dateParts := [],
    datePartCursor := 0, result := "", error := "", resultScroll := 0,
    resultScrollX := 0, spinnerFrame := 0 }

/-- States the event loop can reach from start-up, over any key, timer and
tool-completion events. -/
inductive Reachable (env : Env) (tools : List ToolDef) : AppState → Prop where
  | init : Reachable env tools (initState tools)
  | next {s s2 : AppState} {ev : AppEvent} :
      Reachable env tools s → step env s ev = some s2 → Reachable env tools s2

/-! ## Association-list lemmas -/

theorem olookup_oupsert_self {α : Type} (l : List (String × α)) (k : String) (v : α) :
    olookup (oupsert l k v) k = some v := by
  induction l with
  | nil => simp [oupsert, olookup]
  | cons h t ih =>
    by_cases hk : h.1 = k <;> simp [oupsert, olookup, hk, ih]

theorem olookup_oupsert_ne {α : Type} (l : List (String × α)) (k k2 : String) (v : α)
    (hne : k ≠ k2) : olookup (oupsert l k v) k2 = olookup l k2 := by
  induction l with
  | nil => simp [oupsert, olookup, hne]
  | cons h t ih =>
    by_cases hk : h.1 = k
    · simp [oupsert, olookup, hk, hne]
    · simp only [oupsert, hk, if_false, olookup]
      by_cases hk2 : h.1 = k2 <;> simp [hk2, ih]

theorem olookup_oupsert_isSome {α : Type} (l : List (String × α)) (k n : String) (v : α) :
    (olookup (oupsert l k v) n).isSome ↔ n = k ∨ (olookup l n).isSome := by
  by_cases hk : k = n
  · subst hk; simp [olookup_oupsert_self]
  · rw [olookup_oupsert_ne l k n v hk]
    have : n ≠ k := fun h => hk h.symm
    simp [this]

/-- Lookup after a per-field initialization fold: present exactly for the
initialized names (or names already present). -/
theorem olookup_init_fold_isSome (fields : List FormField)
    (g : FormField → String) (init : List (String × String)) (n : String) :
    (olookup (fields.foldl (fun acc f => oupsert acc f.name (g f)) init) n).isSome ↔
      n ∈ fields.map FormField.name ∨ (olookup init n).isSome := by
  induction fields generalizing init with
  | nil => simp
  | cons f t ih =>
    simp only [List.foldl_cons, List.map_cons, List.mem_cons]
    rw [ih]
    rw [olookup_oupsert_isSome]
    tauto

/-- A per-field fold leaves names it never writes alone. -/
theorem olookup_fold_notmem (t : List FormField) (g : FormField → String)
    (init : List (String × String)) (n : String) (hn : n ∉ t.map FormField.name) :
    olookup (t.foldl (fun acc f => oupsert acc f.name (g f)) init) n = olookup init n := by
  induction t generalizing init with
  | nil => rfl
  | cons f0 t2 ih =>
    simp only [List.map_cons, List.mem_cons, not_or] at hn
    simp only [List.foldl_cons]
    rw [ih _ hn.2, olookup_oupsert_ne _ _ _ _ (fun h => hn.1 h.symm)]

/-- Lookup after a per-field initialization fold, when field names are
unique: each field maps to its own initializer. -/
theorem olookup_init_fold_eq (fields : List FormField) (g : FormField → String)
    (hnd : (fields.map FormField.name).Nodup) (f : FormField) (hf : f ∈ fields)
    (init : List (String × String)) :
    olookup (fields.foldl (fun acc f2 => oupsert acc f2.name (g f2)) init) f.name =
      some (g f) := by
  induction fields generalizing init with
  | nil => cases hf
  | cons f0 t ih =>
    simp only [List.map_cons, List.nodup_cons] at hnd
    rcases List.mem_cons.mp hf with hEq | hMem
    · subst hEq
      simp only [List.foldl_cons]
      rw [olookup_fold_notmem t g _ f.name hnd.1, olookup_oupsert_self]
    · simp only [List.foldl_cons]
      exact ih hnd.2 hMem _

theorem getI_mem {α : Type} {l : List α} {i : Int} {x : α} (h : getI l i = some x) :
    x ∈ l := by
  unfold getI at h
  split at h
  · cases h
  · exact List.get?_mem h

theorem mem_of_getLast? {α : Type} {l : List α} {a : α} (h : l.getLast? = some a) :
    a ∈ l := by
  obtain ⟨hne, rfl⟩ := List.mem_getLast?_eq_getLast (l := l) (x := a) (by rw [h]; rfl)
  exact List.getLast_mem hne

/-! ## Claim C1: `$ref` resolution -/

theorem withDescription_anyOf (d : SchemaProperty) (x : Option String) :
    (d.withDescription x).anyOf = d.anyOf := by
  cases d; rfl

theorem withDescription_description (d : SchemaProperty) (x : Option String) :
    (d.withDescription x).description = x := by
  cases d; rfl

/-- C1: for every schema property whose `$ref` names an entry of the tool's
`$defs` table (an entry with no further `anyOf` to collapse), the resolver
returns the referenced schema in place of the property, and the outer
property's `description` is preserved whenever it has one. -/
theorem c1_ref_resolves_preserving_description
    (prop d : SchemaProperty) (table : List (String × SchemaProperty)) (r : String)
    (href : prop.ref = some r) (hlook : olookup table (refKey r) = some d)
    (hanyof : d.anyOf = none) :
    resolveProperty prop (some table) =
      d.withDescription (prop.description <|> d.description) ∧
    (∀ desc, prop.description = some desc →
      (resolveProperty prop (some table)).description = some desc) := by
  have hres : resolveRefStep prop (some table) =
      d.withDescription (prop.description <|> d.description) := by
    unfold resolveRefStep
    rw [href]
    simp [hlook]
  have hmain : resolveProperty prop (some table) =
      d.withDescription (prop.description <|> d.description) := by
    unfold resolveProperty
    rw [hres]
    unfold resolveAnyOf
    rw [withDescription_anyOf, hanyof]
  refine ⟨hmain, fun desc hdesc => ?_⟩
  rw [hmain, withDescription_description, hdesc]
  rfl

def c1PropOuter : SchemaProperty :=
  .mk none none (some "outer doc") none none none none (some "#/$defs/Tag") none none

def c1PropTarget : SchemaProperty :=
  .mk (some "string") none (some "inner doc") none none none none none none none

/-! ## Claim C9: layout -/

/-- An environment for closed evaluation (the clock is never consulted on
these paths). -/
def envOf (cols rows : Int) : Env :=
  { cols := cols, rows := rows, logoLen := 6, today := fun _ => [2024, 1, 1, 0, 0] }

/-- C9 counterexample: at a 1×1 terminal, `renderLayout` emits 5 lines, not
`rows = 1` lines, and the border fill is 0 dashes, not `cols - 3 = -2`. -/
theorem c9_counterexample :
    (renderLayout (envOf 1 1) "" [] "").length = 5 ∧ (5 : Int) ≠ 1 ∧
    (getBoxDimensions (envOf 1 1)).fillWidth = 0 ∧ (0 : Int) ≠ 1 - 3 := by
  refine ⟨rfl, by decide, rfl, by decide⟩

/-- C9 amended: `renderLayout` produces exactly `max 5 rows` lines (hence
exactly `rows` whenever `rows ≥ 5`): one breadcrumb header, one top border,
`max 1 (rows-4)` content rows, each ` │ <fitWidth(line, inner)><RESET> │`
with `inner = max 0 (cols-5)`, one bottom border with `max 0 (cols-3)` fill
dashes, and one footer; missing content rows are blank-padded and excess
content rows are truncated. -/
theorem c9_amended (env : Env) (b f : String) (content : List String) :
    (renderLayout env b content f).length = (max 5 env.rows).toNat ∧
    (5 ≤ env.rows → ((renderLayout env b content f).length : Int) = env.rows) ∧
    (renderLayout env b content f)[0]? = some ("  " ++ b) ∧
    (renderLayout env b content f)[1]? =
      some (" ╭" ++ repeatChar '─' (max 0 (env.cols - 3)).toNat ++ "╮") ∧
    (∀ i : Nat, i < (max 1 (env.rows - 4)).toNat →
      (renderLayout env b content f)[2 + i]? =
        some (" │ " ++ fitWidth ((content.get? i).getD "") (max 0 (env.cols - 5))
          ++ RESET ++ " │")) ∧
    (renderLayout env b content f)[2 + (max 1 (env.rows - 4)).toNat]? =
      some (" ╰" ++ repeatChar '─' (max 0 (env.cols - 3)).toNat ++ "╯") ∧
    (renderLayout env b content f)[3 + (max 1 (env.rows - 4)).toNat]? =
      some ("  " ++ f) := by
  have hraw : ∀ i : Nat,
      (if i < content.length then (content.get? i).getD "" else "") =
        (content.get? i).getD "" := by
    intro i
    by_cases hi : i < content.length
    · simp [hi]
    · have hnone : content.get? i = none := List.get?_eq_none.mpr (Nat.le_of_not_lt hi)
      rw [hnone]
      simp [hi]
  have hre : renderLayout env b content f =
      ["  " ++ b, " ╭" ++ repeatChar '─' (max 0 (env.cols - 3)).toNat ++ "╮"]
      ++ (List.range (max 1 (env.rows - 4)).toNat).map (fun i =>
        " │ " ++ fitWidth ((content.get? i).getD "") (max 0 (env.cols - 5))
          ++ RESET ++ " │")
      ++ [" ╰" ++ repeatChar '─' (max 0 (env.cols - 3)).toNat ++ "╯", "  " ++ f] := by
    unfold renderLayout getBoxDimensions
    simp only [hraw]
  rw [hre]
  set ch := (max 1 (env.rows - 4)).toNat with hch
  set mid := (List.range ch).map (fun i =>
    " │ " ++ fitWidth ((content.get? i).getD "") (max 0 (env.cols - 5))
      ++ RESET ++ " │") with hmid
  have hmidlen : mid.length = ch := by rw [hmid]; simp
  have hlen : (["  " ++ b, " ╭" ++ repeatChar '─' (max 0 (env.cols - 3)).toNat ++ "╮"]
      ++ mid
      ++ [" ╰" ++ repeatChar '─' (max 0 (env.cols - 3)).toNat ++ "╯", "  " ++ f]).length
      = 4 + ch := by
    simp [List.length_append, hmidlen]
    omega
  refine ⟨?_, ?_, ?_, ?_, ?_, ?_, ?_⟩
  · rw [hlen]; omega
  · intro h5; rw [hlen]; omega
  · simp
  · simp
  · intro i hi
    simp only [List.cons_append, List.singleton_append, List.nil_append]
    rw [show 2 + i = i + 1 + 1 from by omega,
        List.getElem?_cons_succ, List.getElem?_cons_succ,
        List.getElem?_append_left (by omega : i < mid.length)]
    rw [hmid]
    simp [List.getElem?_range hi]
  · rw [show 2 + ch = ch + 1 + 1 from by omega]
    simp only [List.cons_append, List.singleton_append, List.nil_append,
      List.getElem?_cons_succ]
    rw [List.getElem?_append_right (by omega : mid.length ≤ ch)]
    rw [hmidlen]
    simp
  · rw [show 3 + ch = (1 + ch) + 1 + 1 from by omega]
    simp only [List.cons_append, List.singleton_append, List.nil_append,
      List.getElem?_cons_succ]
    rw [List.getElem?_append_right (by omega : mid.length ≤ 1 + ch)]
    rw [hmidlen, show 1 + ch - ch = 1 from by omega]
    rfl

/-- Witness for C9 at an 80×24 screen. -/
theorem c9_witness :
    (renderLayout (envOf 80 24) "bc" ["x"] "ft").length = (max 5 (24 : Int)).toNat ∧
    ((5 : Int) ≤ 24 → ((renderLayout (envOf 80 24) "bc" ["x"] "ft").length : Int) = 24) ∧
    (renderLayout (envOf 80 24) "bc" ["x"] "ft")[0]? = some ("  " ++ "bc") := by
  have h := c9_amended (envOf 80 24) "bc" "ft" ["x"]
  exact ⟨h.1, h.2.1, h.2.2.1⟩

/-! ## Claims C7 and C8: the date-part model -/

theorem daysInMonth_bounds (y m : Int) :
    28 ≤ daysInMonth y m ∧ daysInMonth y m ≤ 31 := by
  unfold daysInMonth
  dsimp only
  split_ifs <;> omega

theorem jsMod_eq_emod (a b : Int) (ha : 0 ≤ a) (hb : 0 ≤ b) : jsMod a b = a % b :=
  Int.tmod_eq_emod ha hb

theorem wrap_emod (x n k : Int) (hn : 0 < n) (hx : 0 ≤ x + n * k) :
    jsMod (x + n * k) n = x % n := by
  rw [jsMod_eq_emod _ _ hx (le_of_lt hn), Int.add_mul_emod_self_left]

/-- Kernel-computable index and update facts for concrete-shape part lists. -/
theorem getI3_0 (y m d : Int) : getI [y, m, d] 0 = some y := rfl

theorem getI3_1 (y m d : Int) : getI [y, m, d] 1 = some m := rfl

theorem getI3_2 (y m d : Int) : getI [y, m, d] 2 = some d := rfl

theorem setI3_0 (y m d v : Int) : setI [y, m, d] 0 v = [v, m, d] := rfl

theorem setI3_1 (y m d v : Int) : setI [y, m, d] 1 v = [y, v, d] := rfl

theorem setI3_2 (y m d v : Int) : setI [y, m, d] 2 v = [y, m, v] := rfl

theorem getI5_0 (y m d hh mi : Int) : getI [y, m, d, hh, mi] 0 = some y := rfl

theorem getI5_1 (y m d hh mi : Int) : getI [y, m, d, hh, mi] 1 = some m := rfl

theorem getI5_2 (y m d hh mi : Int) : getI [y, m, d, hh, mi] 2 = some d := rfl

theorem getI5_3 (y m d hh mi : Int) : getI [y, m, d, hh, mi] 3 = some hh := rfl

theorem getI5_4 (y m d hh mi : Int) : getI [y, m, d, hh, mi] 4 = some mi := rfl

theorem setI5_0 (y m d hh mi v : Int) : setI [y, m, d, hh, mi] 0 v = [v, m, d, hh, mi] := rfl

theorem setI5_1 (y m d hh mi v : Int) : setI [y, m, d, hh, mi] 1 v = [y, v, d, hh, mi] := rfl

theorem setI5_2 (y m d hh mi v : Int) : setI [y, m, d, hh, mi] 2 v = [y, m, v, hh, mi] := rfl

theorem setI5_3 (y m d hh mi v : Int) : setI [y, m, d, hh, mi] 3 v = [y, m, d, v, mi] := rfl

theorem setI5_4 (y m d hh mi v : Int) : setI [y, m, d, hh, mi] 4 v = [y, m, d, hh, v] := rfl

/-- Year cursor: clamp into [1900, 2100], then clamp the day from above. -/
theorem adjust3_c0 (y m d delta : Int) :
    adjustDatePart [y, m, d] 0 delta .date =
      [max 1900 (min 2100 (y + delta)), m,
       min d (daysInMonth (max 1900 (min 2100 (y + delta))) m)] := by
  simp only [adjustDatePart, getI3_0, getI3_1, getI3_2, setI3_0, setI3_1, setI3_2,
    getI5_0, getI5_1, getI5_2, getI5_3, getI5_4, setI5_0, setI5_1, setI5_2, setI5_3,
    setI5_4, Option.getD_some]
  norm_num
  simp only [getI3_0, getI3_1, getI3_2, setI3_0, setI3_1, setI3_2, getI5_0, getI5_1,
    getI5_2, getI5_3, getI5_4, setI5_0, setI5_1, setI5_2, setI5_3, setI5_4,
    Option.getD_some]
  rcases le_or_lt d (daysInMonth (max 1900 (min 2100 (y + delta))) m) with h | h
  · rw [if_neg (not_lt.mpr h), min_eq_left h]
  · rw [if_pos h, min_eq_right (le_of_lt h)]

/-- Month cursor: wrap into [1, 12], then clamp the day from above. -/
theorem adjust3_c1 (y m d delta : Int) (hm : 1 ≤ m) (hdelta : -120 ≤ delta) :
    adjustDatePart [y, m, d] 1 delta .date =
      [y, (m - 1 + delta) % 12 + 1,
       min d (daysInMonth y ((m - 1 + delta) % 12 + 1))] := by
  have hw : jsMod (m - 1 + delta + 120) 12 = (m - 1 + delta) % 12 := by
    rw [show m - 1 + delta + 120 = (m - 1 + delta) + 12 * 10 from by ring]
    exact wrap_emod _ _ _ (by omega) (by omega)
  simp only [adjustDatePart, getI3_0, getI3_1, getI3_2, setI3_0, setI3_1, setI3_2,
    getI5_0, getI5_1, getI5_2, getI5_3, getI5_4, setI5_0, setI5_1, setI5_2, setI5_3,
    setI5_4, Option.getD_some]
  norm_num
  simp only [getI3_0, getI3_1, getI3_2, setI3_0, setI3_1, setI3_2, getI5_0, getI5_1,
    getI5_2, getI5_3, getI5_4, setI5_0, setI5_1, setI5_2, setI5_3, setI5_4,
    Option.getD_some]
  rw [hw]
  rcases le_or_lt d (daysInMonth y ((m - 1 + delta) % 12 + 1)) with h | h
  · rw [if_neg (not_lt.mpr h), min_eq_left h]
  · rw [if_pos h, min_eq_right (le_of_lt h)]

/-- Day cursor: wrap into [1, daysInMonth y m]; the final clamp is a no-op. -/
theorem adjust3_c2 (y m d delta : Int) (hd : 1 ≤ d) (hdelta : -120 ≤ delta) :
    adjustDatePart [y, m, d] 2 delta .date =
      [y, m, (d - 1 + delta) % daysInMonth y m + 1] := by
  have hb := daysInMonth_bounds y m
  have hw : jsMod (d - 1 + delta + daysInMonth y m * 100) (daysInMonth y m) =
      (d - 1 + delta) % daysInMonth y m :=
    wrap_emod _ _ _ (by omega) (by nlinarith)
  have hlt : (d - 1 + delta) % daysInMonth y m < daysInMonth y m :=
    Int.emod_lt_of_pos _ (by omega)
  simp only [adjustDatePart, getI3_0, getI3_1, getI3_2, setI3_0, setI3_1, setI3_2,
    getI5_0, getI5_1, getI5_2, getI5_3, getI5_4, setI5_0, setI5_1, setI5_2, setI5_3,
    setI5_4, Option.getD_some]
  norm_num
  simp only [getI3_0, getI3_1, getI3_2, setI3_0, setI3_1, setI3_2, getI5_0, getI5_1,
    getI5_2, getI5_3, getI5_4, setI5_0, setI5_1, setI5_2, setI5_3, setI5_4,
    Option.getD_some]
  rw [hw, if_neg (by omega)]

/-- Any other cursor leaves in-range date parts unchanged. -/
theorem adjust3_other (y m d cursor delta : Int) (h0 : cursor ≠ 0)
    (h1 : cursor ≠ 1) (h2 : cursor ≠ 2) (hday : d ≤ daysInMonth y m) :
    adjustDatePart [y, m, d] cursor delta .date = [y, m, d] := by
  simp only [adjustDatePart, getI3_0, getI3_1, getI3_2, setI3_0, setI3_1, setI3_2,
    getI5_0, getI5_1, getI5_2, getI5_3, getI5_4, setI5_0, setI5_1, setI5_2, setI5_3,
    setI5_4, Option.getD_some]
  norm_num
  rw [if_neg h0, if_neg h1, if_neg h2,
      if_neg (by simp : ¬(cursor = 3 ∧ DateFormat.date = DateFormat.dateTime)),
      if_neg (by simp : ¬(cursor = 4 ∧ DateFormat.date = DateFormat.dateTime))]
  simp only [getI3_0, getI3_1, getI3_2, setI3_2, Option.getD_some]
  rw [if_neg (by omega)]

/-- Year cursor on date-time parts. -/
theorem adjust5_c0 (y m d hh mi delta : Int) :
    adjustDatePart [y, m, d, hh, mi] 0 delta .dateTime =
      [max 1900 (min 2100 (y + delta)), m,
       min d (daysInMonth (max 1900 (min 2100 (y + delta))) m), hh, mi] := by
  simp only [adjustDatePart, getI3_0, getI3_1, getI3_2, setI3_0, setI3_1, setI3_2,
    getI5_0, getI5_1, getI5_2, getI5_3, getI5_4, setI5_0, setI5_1, setI5_2, setI5_3,
    setI5_4, Option.getD_some]
  norm_num
  simp only [getI3_0, getI3_1, getI3_2, setI3_0, setI3_1, setI3_2, getI5_0, getI5_1,
    getI5_2, getI5_3, getI5_4, setI5_0, setI5_1, setI5_2, setI5_3, setI5_4,
    Option.getD_some]
  rcases le_or_lt d (daysInMonth (max 1900 (min 2100 (y + delta))) m) with h | h
  · rw [if_neg (not_lt.mpr h), min_eq_left h]
  · rw [if_pos h, min_eq_right (le_of_lt h)]

/-- Month cursor on date-time parts. -/
theorem adjust5_c1 (y m d hh mi delta : Int) (hm : 1 ≤ m) (hdelta : -120 ≤ delta) :
    adjustDatePart [y, m, d, hh, mi] 1 delta .dateTime =
      [y, (m - 1 + delta) % 12 + 1,
       min d (daysInMonth y ((m - 1 + delta) % 12 + 1)), hh, mi] := by
  have hw : jsMod (m - 1 + delta + 120) 12 = (m - 1 + delta) % 12 := by
    rw [show m - 1 + delta + 120 = (m - 1 + delta) + 12 * 10 from by ring]
    exact wrap_emod _ _ _ (by omega) (by omega)
  simp only [adjustDatePart, getI3_0, getI3_1, getI3_2, setI3_0, setI3_1, setI3_2,
    getI5_0, getI5_1, getI5_2, getI5_3, getI5_4, setI5_0, setI5_1, setI5_2, setI5_3,
    setI5_4, Option.getD_some]
  norm_num
  simp only [getI3_0, getI3_1, getI3_2, setI3_0, setI3_1, setI3_2, getI5_0, getI5_1,
    getI5_2, getI5_3, getI5_4, setI5_0, setI5_1, setI5_2, setI5_3, setI5_4,
    Option.getD_some]
  rw [hw]
  rcases le_or_lt d (daysInMonth y ((m - 1 + delta) % 12 + 1)) with h | h
  · rw [if_neg (not_lt.mpr h), min_eq_left h]
  · rw [if_pos h, min_eq_right (le_of_lt h)]

/-- Day cursor on date-time parts. -/
theorem adjust5_c2 (y m d hh mi delta : Int) (hd : 1 ≤ d) (hdelta : -120 ≤ delta) :
    adjustDatePart [y, m, d, hh, mi] 2 delta .dateTime =
      [y, m, (d - 1 + delta) % daysInMonth y m + 1, hh, mi] := by
  have hb := daysInMonth_bounds y m
  have hw : jsMod (d - 1 + delta + daysInMonth y m * 100) (daysInMonth y m) =
      (d - 1 + delta) % daysInMonth y m :=
    wrap_emod _ _ _ (by omega) (by nlinarith)
  have hlt : (d - 1 + delta) % daysInMonth y m < daysInMonth y m :=
    Int.emod_lt_of_pos _ (by omega)
  simp only [adjustDatePart, getI3_0, getI3_1, getI3_2, setI3_0, setI3_1, setI3_2,
    getI5_0, getI5_1, getI5_2, getI5_3, getI5_4, setI5_0, setI5_1, setI5_2, setI5_3,
    setI5_4, Option.getD_some]
  norm_num
  simp only [getI3_0, getI3_1, getI3_2, setI3_0, setI3_1, setI3_2, getI5_0, getI5_1,
    getI5_2, getI5_3, getI5_4, setI5_0, setI5_1, setI5_2, setI5_3, setI5_4,
    Option.getD_some]
  rw [hw, if_neg (by omega)]

/-- Hour cursor: wrap into [0, 23]; the day clamp is a no-op in range. -/
theorem adjust5_c3 (y m d hh mi delta : Int) (hh0 : 0 ≤ hh)
    (hdelta : -120 ≤ delta) (hday : d ≤ daysInMonth y m) :
    adjustDatePart [y, m, d, hh, mi] 3 delta .dateTime =
      [y, m, d, (hh + delta) % 24, mi] := by
  have hw : jsMod (hh + delta + 240) 24 = (hh + delta) % 24 := by
    rw [show hh + delta + 240 = (hh + delta) + 24 * 10 from by ring]
    exact wrap_emod _ _ _ (by omega) (by omega)
  simp only [adjustDatePart, getI3_0, getI3_1, getI3_2, setI3_0, setI3_1, setI3_2,
    getI5_0, getI5_1, getI5_2, getI5_3, getI5_4, setI5_0, setI5_1, setI5_2, setI5_3,
    setI5_4, Option.getD_some]
  norm_num
  simp only [getI3_0, getI3_1, getI3_2, setI3_0, setI3_1, setI3_2, getI5_0, getI5_1,
    getI5_2, getI5_3, getI5_4, setI5_0, setI5_1, setI5_2, setI5_3, setI5_4,
    Option.getD_some]
  rw [hw, if_neg (by omega)]

/-- Minute cursor: wrap into [0, 59]; the day clamp is a no-op in range. -/
theorem adjust5_c4 (y m d hh mi delta : Int) (hmi0 : 0 ≤ mi)
    (hdelta : -120 ≤ delta) (hday : d ≤ daysInMonth y m) :
    adjustDatePart [y, m, d, hh, mi] 4 delta .dateTime =
      [y, m, d, hh, (mi + delta) % 60] := by
  have hw : jsMod (mi + delta + 600) 60 = (mi + delta) % 60 := by
    rw [show mi + delta + 600 = (mi + delta) + 60 * 10 from by ring]
    exact wrap_emod _ _ _ (by omega) (by omega)
  simp only [adjustDatePart, getI3_0, getI3_1, getI3_2, setI3_0, setI3_1, setI3_2,
    getI5_0, getI5_1, getI5_2, getI5_3, getI5_4, setI5_0, setI5_1, setI5_2, setI5_3,
    setI5_4, Option.getD_some]
  norm_num
  simp only [getI3_0, getI3_1, getI3_2, setI3_0, setI3_1, setI3_2, getI5_0, getI5_1,
    getI5_2, getI5_3, getI5_4, setI5_0, setI5_1, setI5_2, setI5_3, setI5_4,
    Option.getD_some]
  rw [hw, if_neg (by omega)]

/-- Any other cursor leaves in-range date-time parts unchanged. -/
theorem adjust5_other (y m d hh mi cursor delta : Int) (h0 : cursor ≠ 0)
    (h1 : cursor ≠ 1) (h2 : cursor ≠ 2) (h3 : cursor ≠ 3) (h4 : cursor ≠ 4)
    (hday : d ≤ daysInMonth y m) :
    adjustDatePart [y, m, d, hh, mi] cursor delta .dateTime = [y, m, d, hh, mi] := by
  simp only [adjustDatePart, getI3_0, getI3_1, getI3_2, setI3_0, setI3_1, setI3_2,
    getI5_0, getI5_1, getI5_2, getI5_3, getI5_4, setI5_0, setI5_1, setI5_2, setI5_3,
    setI5_4, Option.getD_some]
  norm_num
  rw [if_neg h0, if_neg h1, if_neg h2, if_neg h3, if_neg h4]
  simp only [getI5_0, getI5_1, getI5_2, setI5_2, Option.getD_some]
  rw [if_neg (by omega)]

/-- C7 counterexample: with in-range parts and `delta = -121`, the JS `%`
keeps the dividend's sign and the "wrapped" month is 0, outside [1, 12]. -/
theorem c7_counterexample :
    adjustDatePart [2000, 1, 1] 1 (-121) DateFormat.date = [2000, 0, 1] ∧
    ¬(1 ≤ (0 : Int)) :=
  ⟨by decide, by decide⟩

/-- C7 amended: restricted to in-range parts and |delta| ≤ 120 (the UI only
uses ±1), `adjust` clamps the year into [1900, 2100], wraps the month into
[1, 12], wraps the day into [1, daysInMonth y m], wraps hour and minute into
[0, 23] / [0, 59], and after any change clamps the day to the (possibly new)
month's length: the result is again in range. -/
theorem c7_amended :
    (∀ y m d cursor delta : Int,
      1900 ≤ y → y ≤ 2100 → 1 ≤ m → m ≤ 12 → 1 ≤ d → d ≤ daysInMonth y m →
      -120 ≤ delta → delta ≤ 120 →
      (cursor = 0 → adjustDatePart [y, m, d] cursor delta .date =
        [max 1900 (min 2100 (y + delta)), m,
         min d (daysInMonth (max 1900 (min 2100 (y + delta))) m)]) ∧
      (cursor = 1 → adjustDatePart [y, m, d] cursor delta .date =
        [y, (m - 1 + delta) % 12 + 1,
         min d (daysInMonth y ((m - 1 + delta) % 12 + 1))]) ∧
      (cursor = 2 → adjustDatePart [y, m, d] cursor delta .date =
        [y, m, (d - 1 + delta) % daysInMonth y m + 1]) ∧
      (∃ y2 m2 d2, adjustDatePart [y, m, d] cursor delta .date = [y2, m2, d2] ∧
        1900 ≤ y2 ∧ y2 ≤ 2100 ∧ 1 ≤ m2 ∧ m2 ≤ 12 ∧ 1 ≤ d2 ∧
        d2 ≤ daysInMonth y2 m2)) ∧
    (∀ y m d hh mi cursor delta : Int,
      1900 ≤ y → y ≤ 2100 → 1 ≤ m → m ≤ 12 → 1 ≤ d → d ≤ daysInMonth y m →
      0 ≤ hh → hh ≤ 23 → 0 ≤ mi → mi ≤ 59 → -120 ≤ delta → delta ≤ 120 →
      (cursor = 3 → adjustDatePart [y, m, d, hh, mi] cursor delta .dateTime =
        [y, m, d, (hh + delta) % 24, mi]) ∧
      (cursor = 4 → adjustDatePart [y, m, d, hh, mi] cursor delta .dateTime =
        [y, m, d, hh, (mi + delta) % 60]) ∧
      (∃ y2 m2 d2 h2 mi2,
        adjustDatePart [y, m, d, hh, mi] cursor delta .dateTime =
          [y2, m2, d2, h2, mi2] ∧
        1900 ≤ y2 ∧ y2 ≤ 2100 ∧ 1 ≤ m2 ∧ m2 ≤ 12 ∧ 1 ≤ d2 ∧
        d2 ≤ daysInMonth y2 m2 ∧ 0 ≤ h2 ∧ h2 ≤ 23 ∧ 0 ≤ mi2 ∧ mi2 ≤ 59)) := by
  constructor
  · intro y m d cursor delta hy1 hy2 hm1 hm2 hd1 hd2 hdl hdr
    refine ⟨fun hc => ?_, fun hc => ?_, fun hc => ?_, ?_⟩
    · subst hc; exact adjust3_c0 y m d delta
    · subst hc; exact adjust3_c1 y m d delta hm1 hdl
    · subst hc; exact adjust3_c2 y m d delta hd1 hdl
    · by_cases h0 : cursor = 0
      · subst h0
        rw [adjust3_c0 y m d delta]
        have hb := daysInMonth_bounds (max 1900 (min 2100 (y + delta))) m
        exact ⟨_, _, _, rfl, by omega, by omega, hm1, hm2, by omega, by omega⟩
      · by_cases h1 : cursor = 1
        · subst h1
          rw [adjust3_c1 y m d delta hm1 hdl]
          have he1 : 0 ≤ (m - 1 + delta) % 12 := Int.emod_nonneg _ (by norm_num)
          have he2 : (m - 1 + delta) % 12 < 12 := Int.emod_lt_of_pos _ (by norm_num)
          have hb := daysInMonth_bounds y ((m - 1 + delta) % 12 + 1)
          exact ⟨_, _, _, rfl, hy1, hy2, by omega, by omega, by omega, by omega⟩
        · by_cases h2 : cursor = 2
          · subst h2
            rw [adjust3_c2 y m d delta hd1 hdl]
            have hb := daysInMonth_bounds y m
            have he1 : 0 ≤ (d - 1 + delta) % daysInMonth y m :=
              Int.emod_nonneg _ (by omega)
            have he2 : (d - 1 + delta) % daysInMonth y m < daysInMonth y m :=
              Int.emod_lt_of_pos _ (by omega)
            exact ⟨_, _, _, rfl, hy1, hy2, hm1, hm2, by omega, by omega⟩
          · rw [adjust3_other y m d cursor delta h0 h1 h2 hd2]
            exact ⟨_, _, _, rfl, hy1, hy2, hm1, hm2, hd1, hd2⟩
  · intro y m d hh mi cursor delta hy1 hy2 hm1 hm2 hd1 hd2 hh1 hh2 hmi1 hmi2 hdl hdr
    refine ⟨fun hc => ?_, fun hc => ?_, ?_⟩
    · subst hc; exact adjust5_c3 y m d hh mi delta hh1 hdl hd2
    · subst hc; exact adjust5_c4 y m d hh mi delta hmi1 hdl hd2
    · by_cases h0 : cursor = 0
      · subst h0
        rw [adjust5_c0 y m d hh mi delta]
        have hb := daysInMonth_bounds (max 1900 (min 2100 (y + delta))) m
        exact ⟨_, _, _, _, _, rfl, by omega, by omega, hm1, hm2, by omega, by omega,
          hh1, hh2, hmi1, hmi2⟩
      · by_cases h1 : cursor = 1
        · subst h1
          rw [adjust5_c1 y m d hh mi delta hm1 hdl]
          have he1 : 0 ≤ (m - 1 + delta) % 12 := Int.emod_nonneg _ (by norm_num)
          have he2 : (m - 1 + delta) % 12 < 12 := Int.emod_lt_of_pos _ (by norm_num)
          have hb := daysInMonth_bounds y ((m - 1 + delta) % 12 + 1)
          exact ⟨_, _, _, _, _, rfl, hy1, hy2, by omega, by omega, by omega, by omega,
            hh1, hh2, hmi1, hmi2⟩
        · by_cases h2 : cursor = 2
          · subst h2
            rw [adjust5_c2 y m d hh mi delta hd1 hdl]
            have hb := daysInMonth_bounds y m
            have he1 : 0 ≤ (d - 1 + delta) % daysInMonth y m :=
              Int.emod_nonneg _ (by omega)
            have he2 : (d - 1 + delta) % daysInMonth y m < daysInMonth y m :=
              Int.emod_lt_of_pos _ (by omega)
            exact ⟨_, _, _, _, _, rfl, hy1, hy2, hm1, hm2, by omega, by omega,
              hh1, hh2, hmi1, hmi2⟩
          · by_cases h3 : cursor = 3
            · subst h3
              rw [adjust5_c3 y m d hh mi delta hh1 hdl hd2]
              have he1 : 0 ≤ (hh + delta) % 24 := Int.emod_nonneg _ (by norm_num)
              have he2 : (hh + delta) % 24 < 24 := Int.emod_lt_of_pos _ (by norm_num)
              exact ⟨_, _, _, _, _, rfl, hy1, hy2, hm1, hm2, hd1, hd2,
                he1, by omega, hmi1, hmi2⟩
            · by_cases h4 : cursor = 4
              · subst h4
                rw [adjust5_c4 y m d hh mi delta hmi1 hdl hd2]
                have he1 : 0 ≤ (mi + delta) % 60 := Int.emod_nonneg _ (by norm_num)
                have he2 : (mi + delta) % 60 < 60 := Int.emod_lt_of_pos _ (by norm_num)
                exact ⟨_, _, _, _, _, rfl, hy1, hy2, hm1, hm2, hd1, hd2,
                  hh1, hh2, he1, by omega⟩
              · rw [adjust5_other y m d hh mi cursor delta h0 h1 h2 h3 h4 hd2]
                exact ⟨_, _, _, _, _, rfl, hy1, hy2, hm1, hm2, hd1, hd2,
                  hh1, hh2, hmi1, hmi2⟩

/-- Witness for C7: month cursor, +1 from January 15, 2024. -/
theorem c7_witness :
    adjustDatePart [2024, 1, 15] 1 1 DateFormat.date =
      [2024, (1 - 1 + 1) % 12 + 1, min 15 (daysInMonth 2024 ((1 - 1 + 1) % 12 + 1))] :=
  (c7_amended.1 2024 1 15 1 1 (by decide) (by decide) (by decide) (by decide)
    (by decide) (by decide) (by decide) (by decide)).2.1 rfl

/-- C8 counterexample: at the year clamp boundary (in-range parts, no
day-clamp edge involved), +1 then −1 lands on 2099, not back on 2100. -/
theorem c8_counterexample :
    adjustDatePart (adjustDatePart [2100, 1, 1] 0 1 DateFormat.date) 0 (-1)
      DateFormat.date = [2099, 1, 1] ∧
    ([2099, 1, 1] : List Int) ≠ [2100, 1, 1] ∧
    1900 ≤ (2100 : Int) ∧ (1 : Int) ≤ daysInMonth 2100 1 :=
  ⟨by decide, by decide, by decide, by decide⟩

theorem day_roundtrip (d mx : Int) (h1 : 1 ≤ d) (h2 : d ≤ mx) :
    ((d - 1 + 1) % mx + 1 - 1 + -1) % mx + 1 = d := by
  rcases lt_or_eq_of_le h2 with hlt | hEq
  · rw [show d - 1 + 1 = d from by ring, Int.emod_eq_of_lt (by omega) hlt,
        show d + 1 - 1 + -1 = d - 1 from by ring,
        Int.emod_eq_of_lt (by omega) (by omega)]
    ring
  · subst hEq
    rw [show d - 1 + 1 = d from by ring, Int.emod_self,
        show (0 : Int) + 1 - 1 + -1 = d - 1 + d * (-1) from by ring,
        Int.add_mul_emod_self_left, Int.emod_eq_of_lt (by omega) (by omega)]
    ring

/-- C8 amended: on in-range parts, adjusting +1 then −1 at the same cursor
restores the original parts, except at the year cursor where the upper
clamp (`year = 2100`) and the leap-day clamp on the year change are lossy,
and except for the documented day-clamp-on-month-change edge (excluded by
requiring the day to fit the next month). -/
theorem c8_amended :
    (∀ y m d cursor : Int,
      1900 ≤ y → y ≤ 2100 → 1 ≤ m → m ≤ 12 → 1 ≤ d → d ≤ daysInMonth y m →
      (cursor = 0 → y + 1 ≤ 2100 → d ≤ daysInMonth (y + 1) m →
        adjustDatePart (adjustDatePart [y, m, d] cursor 1 .date) cursor (-1) .date =
          [y, m, d]) ∧
      (cursor = 1 → d ≤ daysInMonth y ((m - 1 + 1) % 12 + 1) →
        adjustDatePart (adjustDatePart [y, m, d] cursor 1 .date) cursor (-1) .date =
          [y, m, d]) ∧
      (cursor ≠ 0 → cursor ≠ 1 →
        adjustDatePart (adjustDatePart [y, m, d] cursor 1 .date) cursor (-1) .date =
          [y, m, d])) ∧
    (∀ y m d hh mi cursor : Int,
      1900 ≤ y → y ≤ 2100 → 1 ≤ m → m ≤ 12 → 1 ≤ d → d ≤ daysInMonth y m →
      0 ≤ hh → hh ≤ 23 → 0 ≤ mi → mi ≤ 59 →
      (cursor = 0 → y + 1 ≤ 2100 → d ≤ daysInMonth (y + 1) m →
        adjustDatePart (adjustDatePart [y, m, d, hh, mi] cursor 1 .dateTime) cursor
          (-1) .dateTime = [y, m, d, hh, mi]) ∧
      (cursor = 1 → d ≤ daysInMonth y ((m - 1 + 1) % 12 + 1) →
        adjustDatePart (adjustDatePart [y, m, d, hh, mi] cursor 1 .dateTime) cursor
          (-1) .dateTime = [y, m, d, hh, mi]) ∧
      (cursor ≠ 0 → cursor ≠ 1 →
        adjustDatePart (adjustDatePart [y, m, d, hh, mi] cursor 1 .dateTime) cursor
          (-1) .dateTime = [y, m, d, hh, mi])) := by
  constructor
  · intro y m d cursor hy1 hy2 hm1 hm2 hd1 hd2
    refine ⟨fun hc hy3 hd3 => ?_, fun hc hd3 => ?_, fun h0 h1 => ?_⟩
    · subst hc
      rw [adjust3_c0 y m d 1, show max 1900 (min 2100 (y + 1)) = y + 1 from by omega,
          min_eq_left hd3, adjust3_c0 (y + 1) m d (-1),
          show max 1900 (min 2100 (y + 1 + -1)) = y from by omega, min_eq_left hd2]
    · subst hc
      rw [adjust3_c1 y m d 1 hm1 (by norm_num), min_eq_left hd3]
      have he1 : 0 ≤ (m - 1 + 1) % 12 := Int.emod_nonneg _ (by norm_num)
      rw [adjust3_c1 y ((m - 1 + 1) % 12 + 1) d (-1) (by omega) (by norm_num)]
      have hm' : ((m - 1 + 1) % 12 + 1 - 1 + -1) % 12 + 1 = m := by omega
      rw [hm', min_eq_left hd2]
    · by_cases h2 : cursor = 2
      · subst h2
        have hbm := daysInMonth_bounds y m
        rw [adjust3_c2 y m d 1 hd1 (by norm_num)]
        have he1 : 0 ≤ (d - 1 + 1) % daysInMonth y m := Int.emod_nonneg _ (by omega)
        rw [adjust3_c2 y m ((d - 1 + 1) % daysInMonth y m + 1) (-1) (by omega)
          (by norm_num)]
        rw [day_roundtrip d (daysInMonth y m) hd1 hd2]
      · rw [adjust3_other y m d cursor 1 h0 h1 h2 hd2,
            adjust3_other y m d cursor (-1) h0 h1 h2 hd2]
  · intro y m d hh mi cursor hy1 hy2 hm1 hm2 hd1 hd2 hh1 hh2 hmi1 hmi2
    refine ⟨fun hc hy3 hd3 => ?_, fun hc hd3 => ?_, fun h0 h1 => ?_⟩
    · subst hc
      rw [adjust5_c0 y m d hh mi 1, show max 1900 (min 2100 (y + 1)) = y + 1 from
            by omega,
          min_eq_left hd3, adjust5_c0 (y + 1) m d hh mi (-1),
          show max 1900 (min 2100 (y + 1 + -1)) = y from by omega, min_eq_left hd2]
    · subst hc
      rw [adjust5_c1 y m d hh mi 1 hm1 (by norm_num), min_eq_left hd3]
      have he1 : 0 ≤ (m - 1 + 1) % 12 := Int.emod_nonneg _ (by norm_num)
      rw [adjust5_c1 y ((m - 1 + 1) % 12 + 1) d hh mi (-1) (by omega) (by norm_num)]
      have hm' : ((m - 1 + 1) % 12 + 1 - 1 + -1) % 12 + 1 = m := by omega
      rw [hm', min_eq_left hd2]
    · by_cases h2 : cursor = 2
      · subst h2
        have hbm := daysInMonth_bounds y m
        rw [adjust5_c2 y m d hh mi 1 hd1 (by norm_num)]
        have he1 : 0 ≤ (d - 1 + 1) % daysInMonth y m := Int.emod_nonneg _ (by omega)
        rw [adjust5_c2 y m ((d - 1 + 1) % daysInMonth y m + 1) hh mi (-1) (by omega)
          (by norm_num)]
        rw [day_roundtrip d (daysInMonth y m) hd1 hd2]
      · by_cases h3 : cursor = 3
        · subst h3
          rw [adjust5_c3 y m d hh mi 1 hh1 (by norm_num) hd2]
          have he1 : 0 ≤ (hh + 1) % 24 := Int.emod_nonneg _ (by norm_num)
          rw [adjust5_c3 y m d ((hh + 1) % 24) mi (-1) he1 (by norm_num) hd2]
          have : ((hh + 1) % 24 + -1) % 24 = hh := by omega
          rw [this]
        · by_cases h4 : cursor = 4
          · subst h4
            rw [adjust5_c4 y m d hh mi 1 hmi1 (by norm_num) hd2]
            have he1 : 0 ≤ (mi + 1) % 60 := Int.emod_nonneg _ (by norm_num)
            rw [adjust5_c4 y m d hh ((mi + 1) % 60) (-1) he1 (by norm_num) hd2]
            have : ((mi + 1) % 60 + -1) % 60 = mi := by omega
            rw [this]
          · rw [adjust5_other y m d hh mi cursor 1 h0 h1 h2 h3 h4 hd2,
                adjust5_other y m d hh mi cursor (-1) h0 h1 h2 h3 h4 hd2]

/-- Witness for C8: day cursor on January 31, 2024 (+1 wraps to 1, −1 wraps
back to 31). -/
theorem c8_witness :
    adjustDatePart (adjustDatePart [2024, 1, 31] 2 1 DateFormat.date) 2 (-1)
      DateFormat.date = [2024, 1, 31] :=
  (c8_amended.1 2024 1 31 2 (by decide) (by decide) (by decide) (by decide)
    (by decide) (by decide)).2.2 (by decide) (by decide)

/-! ## Claim C6: form values to tool arguments -/

/-- What `argsStep` writes for one field, as a lookup value. -/
def fieldArg (f : FormField) (values : List (String × String)) : Option Json :=
  let val := (olookup values f.name).getD ""
  if val = "" then none
  else if f.prop.type = some "integer" || f.prop.type = some "number" then
    (jsNumber val).map Json.num
  else if f.prop.type = some "boolean" then some (.bool (val = "true"))
  else if f.prop.type = some "array" then
    match jsonParse val with
    | some (.arr xs) => some (.arr xs)
    | some _ => some (.arr (splitTrim val))
    | none => some (.arr (splitTrimFilter val))
  else some (.str val)

theorem argsStep_lookup_ne (values : List (String × String))
    (args : List (String × Json)) (field : FormField) (n : String)
    (hne : field.name ≠ n) :
    olookup (argsStep values args field) n = olookup args n := by
  unfold argsStep
  dsimp only
  split_ifs
  · rfl
  · rcases hn : jsNumber ((olookup values field.name).getD "") with _ | q
    · simp [hn]
    · simp [hn, olookup_oupsert_ne _ _ _ _ hne]
  · exact olookup_oupsert_ne _ _ _ _ hne
  · rcases hj : jsonParse ((olookup values field.name).getD "") with _ | j
    · simp [hj, olookup_oupsert_ne _ _ _ _ hne]
    · rcases j <;> simp [hj, olookup_oupsert_ne _ _ _ _ hne]
  · exact olookup_oupsert_ne _ _ _ _ hne

theorem argsStep_lookup_self (values : List (String × String))
    (args : List (String × Json)) (field : FormField) :
    olookup (argsStep values args field) field.name =
      match fieldArg field values with
      | some v => some v
      | none => olookup args field.name := by
  unfold argsStep fieldArg
  dsimp only
  split_ifs
  · rfl
  · rcases hn : jsNumber ((olookup values field.name).getD "") with _ | q
    · simp [hn]
    · simp [hn, olookup_oupsert_self]
  · simp [olookup_oupsert_self]
  · rcases hj : jsonParse ((olookup values field.name).getD "") with _ | j
    · simp [hj, olookup_oupsert_self]
    · rcases j <;> simp [hj, olookup_oupsert_self]
  · simp [olookup_oupsert_self]

/-- Fields never written leave an arguments accumulator unchanged. -/
theorem args_fold_notmem (t : List FormField) (values : List (String × String))
    (init : List (String × Json)) (n : String) :
    n ∉ t.map FormField.name →
    olookup (t.foldl (argsStep values) init) n = olookup init n := by
  induction t generalizing init with
  | nil => intro _; rfl
  | cons f1 t1 ih =>
    intro hn
    simp only [List.map_cons, List.mem_cons, not_or] at hn
    simp only [List.foldl_cons]
    rw [ih _ hn.2, argsStep_lookup_ne values init f1 n (fun h => hn.1 h.symm)]

theorem formValuesToArgs_fold_lookup (fields : List FormField)
    (values : List (String × String)) (hnd : (fields.map FormField.name).Nodup)
    (f : FormField) (hf : f ∈ fields) (init : List (String × Json))
    (hinit : olookup init f.name = none) :
    olookup (fields.foldl (argsStep values) init) f.name = fieldArg f values := by
  induction fields generalizing init with
  | nil => cases hf
  | cons f0 t ih =>
    simp only [List.map_cons, List.nodup_cons] at hnd
    rcases List.mem_cons.mp hf with hEq | hMem
    · subst hEq
      simp only [List.foldl_cons]
      rw [args_fold_notmem t values _ f.name hnd.1]
      rw [argsStep_lookup_self values init f]
      cases hfa : fieldArg f values with
      | some v => rfl
      | none => simp [hinit]
    · simp only [List.foldl_cons]
      refine ih hnd.2 hMem _ ?_
      rw [argsStep_lookup_ne values init f0 f.name
        (fun h => hnd.1 (h ▸ List.mem_map_of_mem FormField.name hMem))]
      exact hinit

def c6Field : FormField :=
  { name := "tags"
    prop := .mk (some "array") none none none none none none none none none
    required := false }

/-- C6 counterexample: the draft `"a,,b"` (with quotes) JSON-decodes to a
non-array (a string), so the code takes the split-and-trim path that does
NOT drop empty items: the produced array contains the empty string. -/
theorem c6_counterexample :
    jsonParse "\"a,,b\"" = some (.str "a,,b") ∧
    olookup (formValuesToArgs [c6Field] [("tags", "\"a,,b\"")]) "tags" =
      some (.arr [.str "\"a", .str "", .str "b\""]) ∧
    Json.str "" ∈ [Json.str "\"a", Json.str "", Json.str "b\""] :=
  ⟨rfl, rfl, List.mem_cons_of_mem _ (List.mem_cons_self _ _)⟩

/-- C6 amended: per field (unique names), an empty or missing draft is
omitted; a numeric draft is parsed with `Number` and omitted exactly when
that gives NaN; an array draft is JSON-decoded first — a decoded array is
used as-is, a decoded non-array falls back to split-on-comma with items
trimmed but empty items KEPT, and only when JSON-decoding fails are empty
items dropped. -/
theorem c6_amended (fields : List FormField) (values : List (String × String))
    (hnd : (fields.map FormField.name).Nodup) (f : FormField) (hf : f ∈ fields) :
    ((olookup values f.name).getD "" = "" →
      olookup (formValuesToArgs fields values) f.name = none) ∧
    ((f.prop.type = some "integer" ∨ f.prop.type = some "number") →
      (olookup values f.name).getD "" ≠ "" →
      olookup (formValuesToArgs fields values) f.name =
        (jsNumber ((olookup values f.name).getD "")).map Json.num) ∧
    (f.prop.type = some "array" → (olookup values f.name).getD "" ≠ "" →
      (∀ xs, jsonParse ((olookup values f.name).getD "") = some (.arr xs) →
        olookup (formValuesToArgs fields values) f.name = some (.arr xs)) ∧
      (∀ j, jsonParse ((olookup values f.name).getD "") = some j → j.isArr = false →
        olookup (formValuesToArgs fields values) f.name =
          some (.arr (splitTrim ((olookup values f.name).getD "")))) ∧
      (jsonParse ((olookup values f.name).getD "") = none →
        olookup (formValuesToArgs fields values) f.name =
          some (.arr (splitTrimFilter ((olookup values f.name).getD ""))))) := by
  have hbase : olookup (formValuesToArgs fields values) f.name = fieldArg f values :=
    formValuesToArgs_fold_lookup fields values hnd f hf [] rfl
  rw [hbase]
  refine ⟨fun hempty => ?_, fun hty hne => ?_, fun hty hne => ?_⟩
  · simp [fieldArg, hempty]
  · have hb : (f.prop.type = some "integer" || f.prop.type = some "number") = true := by
      rcases hty with h | h <;> simp [h]
    simp [fieldArg, hne, hb]
  · have harr : f.prop.type ≠ some "integer" := by rw [hty]; simp
    refine ⟨fun xs hxs => ?_, fun j hj hjarr => ?_, fun hnone => ?_⟩
    · simp [fieldArg, hne, hty, hxs]
    · rcases j with _ | _ | _ | _ | xs | fs <;> simp_all [fieldArg, hne, hty, Json.isArr]
    · simp [fieldArg, hne, hty, hnone]

def c6NumField : FormField :=
  { name := "n"
    prop := .mk (some "number") none none none none none none none none none
    required := false }

/-- Witness for C6: a numeric field with draft `12px` is omitted (NaN). -/
theorem c6_witness :
    olookup (formValuesToArgs [c6NumField] [("n", "12px")]) "n" =
      (jsNumber ((olookup [("n", "12px")] c6NumField.name).getD "")).map Json.num :=
  (c6_amended [c6NumField] [("n", "12px")] (by simp) c6NumField
    (List.mem_singleton.mpr rfl)).2.1 (Or.inr rfl) (by decide)

/-! ## Claim C10: array-enum editor -/

def escKeyEv : KeyEvent := { raw := "\x1b", name := "escape", shift := false, ctrl := false }

def returnKeyEv : KeyEvent := { raw := "\r", name := "return", shift := false, ctrl := false }

def spaceKeyEv : KeyEvent := { raw := " ", name := " ", shift := false, ctrl := false }

def upKeyEv : KeyEvent := { raw := "\x1b[A", name := "up", shift := false, ctrl := false }

def downKeyEv : KeyEvent := { raw := "\x1b[B", name := "down", shift := false, ctrl := false }

def ctrlCKeyEv : KeyEvent := { raw := "\x03", name := "c", shift := false, ctrl := true }

def qKeyEv : KeyEvent := { raw := "q", name := "q", shift := false, ctrl := false }

/-- One space-toggle at index `i` on the selected set. -/
def togglePos (S : Finset Int) (i : Int) : Finset Int :=
  if i ∈ S then S.erase i else insert i S

/-- The draft the multi-select editor writes: the selected enum values in
ascending index order (= declaration order), joined by `", "`. -/
def joinSelected (evs : List String) (S : Finset Int) : String :=
  String.intercalate ", " ((S.sort (· ≤ ·)).map fun i => (getI evs i).getD "")

theorem mem_togglePos_ne (S : Finset Int) (i x : Int) (h : x ≠ i) :
    x ∈ togglePos S i ↔ x ∈ S := by
  unfold togglePos
  split_ifs <;> simp [Finset.mem_erase, Finset.mem_insert, h]

theorem mem_togglePos_self (S : Finset Int) (i : Int) :
    i ∈ togglePos S i ↔ i ∉ S := by
  unfold togglePos
  split_ifs with h <;> simp [Finset.mem_erase, Finset.mem_insert, h]

theorem mem_togglePos (S : Finset Int) (i x : Int) :
    x ∈ togglePos S i ↔ (if x = i then ¬ x ∈ S else x ∈ S) := by
  by_cases hxi : x = i
  · subst hxi
    simp [mem_togglePos_self]
  · simp [hxi, mem_togglePos_ne S i x hxi]

theorem togglePos_comm (S : Finset Int) (i j : Int) :
    togglePos (togglePos S i) j = togglePos (togglePos S j) i := by
  ext x
  simp only [mem_togglePos]
  split_ifs <;> tauto

/-- C10: in an array-enum editor (an array-typed field whose item schema has
an `enum` and no `properties`, no own `enum`, no date format):
escape confirms the toggled set, enter additionally selects the cursor row;
either way the draft is the selected enum values joined by `", "` in
enum-declaration order; space toggles exactly the cursor index while
up/down only move the cursor; and any two permutations of the same toggle
multiset yield the same selected set, so the draft is independent of the
order in which the user toggled. -/
theorem c10_array_enum_editor (env : Env) (state : AppState) (field : FormField)
    (evs : List String)
    (hfield : getI state.fields state.formEditFieldIdx = some field)
    (hty : field.prop.type = some "array")
    (hitems : field.prop.items.bind SchemaProperty.enumVals = some evs)
    (henum : field.prop.enumVals = none)
    (hnoobj : field.prop.items.bind SchemaProperty.properties = none)
    (hfmt : dateFieldFormat field.prop = none) :
    (match handleFormEditInput env state escKeyEv with
     | .st s2 => olookup s2.formValues field.name =
         some (joinSelected evs state.formEnumSelected) ∧ s2.formEditing = false
     | _ => False) ∧
    (match handleFormEditInput env state returnKeyEv with
     | .st s2 => olookup s2.formValues field.name =
         some (joinSelected evs (insert state.formEnumCursor state.formEnumSelected)) ∧
         s2.formEditing = false
     | _ => False) ∧
    (match handleFormEditInput env state spaceKeyEv with
     | .st s2 => s2.formEnumSelected = togglePos state.formEnumSelected
         state.formEnumCursor ∧ s2.formValues = state.formValues
     | _ => False) ∧
    (∀ k, (k = upKeyEv ∨ k = downKeyEv) →
      match handleFormEditInput env state k with
      | .st s2 => s2.formEnumSelected = state.formEnumSelected ∧
          s2.formValues = state.formValues
      | _ => False) ∧
    (∀ (S : Finset Int) (l1 l2 : List Int), l1.Perm l2 →
      l1.foldl togglePos S = l2.foldl togglePos S) := by
  have hobj : isArrayOfObjects field.prop = false := by
    simp [isArrayOfObjects, hnoobj]
  have henumVals : (field.prop.enumVals <|> field.prop.items.bind (·.enumVals)) =
      some evs := by
    rw [henum, hitems]
    rfl
  have hitems2 : (field.prop.items.bind (·.enumVals)) = some evs := hitems
  refine ⟨?_, ?_, ?_, ?_, ?_⟩
  · unfold handleFormEditInput
    rw [hfield]
    simp [escKeyEv, henum, henumVals, hty, hitems2, joinSelected, olookup_oupsert_self]
  · unfold handleFormEditInput
    rw [hfield]
    simp [returnKeyEv, henum, henumVals, hty, hitems2, hobj, hfmt, joinSelected,
      olookup_oupsert_self]
  · unfold handleFormEditInput
    rw [hfield]
    simp only [spaceKeyEv, henum, henumVals, hobj, hfmt]
    simp [hty, hitems2, henum, togglePos]
  · rintro k (rfl | rfl)
    · unfold handleFormEditInput
      rw [hfield]
      simp [upKeyEv, henum, henumVals, hty, hitems2, hobj, hfmt]
    · unfold handleFormEditInput
      rw [hfield]
      simp [downKeyEv, henum, henumVals, hty, hitems2, hobj, hfmt]
  · intro S l1 l2 hperm
    exact hperm.foldl_eq' (fun x _ y _ z => togglePos_comm z x y) S

/-- Witness for C1 at a concrete property and `$defs` table. -/
theorem c1_witness :
    resolveProperty c1PropOuter (some [("Tag", c1PropTarget)]) =
      c1PropTarget.withDescription ((c1PropOuter.description).orElse
        (fun _ => c1PropTarget.description)) ∧
    (∀ desc, c1PropOuter.description = some desc →
      (resolveProperty c1PropOuter (some [("Tag", c1PropTarget)])).description =
        some desc) :=
  c1_ref_resolves_preserving_description c1PropOuter c1PropTarget
    [("Tag", c1PropTarget)] "#/$defs/Tag" rfl (by rfl) rfl


/-! ## Witness material for the array-enum editor -/

def c10ItemProp : SchemaProperty :=
  .mk none none none (some ["red", "green"]) none none none none none none

def c10Field : FormField :=
  { name := "colors",
    prop := .mk (some "array") none none none (some c10ItemProp) none none none none none,
    required := false }

def c10State : AppState :=
  { initState [] with view := .form, fields := [c10Field], formEditFieldIdx := 0,
                      formEditing := true, formValues := [("colors", "")] }

/-- Witness for C10 at a concrete two-value enum field. -/
theorem c10_witness :
    (match handleFormEditInput (envOf 80 24) c10State returnKeyEv with
     | .st s2 => olookup s2.formValues c10Field.name =
         some (joinSelected ["red", "green"]
           (insert c10State.formEnumCursor c10State.formEnumSelected)) ∧
         s2.formEditing = false
     | _ => False) :=
  (c10_array_enum_editor (envOf 80 24) c10State c10Field ["red", "green"]
    rfl rfl rfl rfl rfl rfl).2.1

/-! ## Claim C2: sub-form completion and cancellation -/

/-- C2: completing an array-of-objects sub-form serializes the child's
drafts to a JSON object and appends it to the parent field's array (when
`editIndex` is -1) or replaces the element at `editIndex`; the palette's
enter on the Execute row with no missing required fields and a non-empty
stack pops the stack via exactly this path; and cancelling with escape
(empty palette query) restores the parent's fields and drafts exactly as
frozen at descent. -/
theorem c2_subform_save_and_cancel (env : Env) (state : AppState)
    (entry : FormStackEntry)
    (hlast : state.formStack.getLast? = some entry) :
    ((popFormStack state).formValues =
       oupsert entry.parentValues entry.parentFieldName
         (jsonStringify (.arr
           (if entry.editIndex ≥ 0 then
              setI (parsedArrayDraft entry.parentValues entry.parentFieldName)
                entry.editIndex
                (Json.obj (serializeSubValues state.fields state.formValues))
            else
              parsedArrayDraft entry.parentValues entry.parentFieldName ++
                [Json.obj (serializeSubValues state.fields state.formValues)]))) ∧
     (popFormStack state).fields = entry.parentFields ∧
     (popFormStack state).formStack = state.formStack.dropLast) ∧
    (getI state.formFilteredIndices state.formListCursor = some (-1) →
     (missingRequiredFields state.fields state.formValues).isEmpty = true →
     handleFormPaletteInput env state returnKeyEv = .st (popFormStack state)) ∧
    (state.formSearchQuery = "" →
     match handleFormPaletteInput env state escKeyEv with
     | .st s2 => s2.fields = entry.parentFields ∧
         s2.formValues = entry.parentValues ∧
         s2.formStack = state.formStack.dropLast
     | _ => False) := by
  have hlen : 0 < state.formStack.length := by
    rcases hs : state.formStack with _ | ⟨a, l⟩
    · rw [hs] at hlast; cases hlast
    · simp
  refine ⟨?_, ?_, ?_⟩
  · unfold popFormStack
    rw [hlast]
    exact ⟨rfl, rfl, rfl⟩
  · intro hget hmiss
    unfold handleFormPaletteInput
    simp [returnKeyEv, hget, hmiss, hlen]
  · intro hq
    unfold handleFormPaletteInput
    simp [escKeyEv, hq, hlast]

def c2SubProp : SchemaProperty :=
  .mk (some "string") none none none none none none none none none

def c2SubField : FormField := { name := "title", prop := c2SubProp, required := false }

def c2ParentField : FormField :=
  { name := "items",
    prop := .mk (some "array") none none none
      (some (.mk (some "object") none none none none none none none
        (some [("title", c2SubProp)]) none)) none none none none none,
    required := false }

def c2Entry : FormStackEntry :=
  { parentFieldName := "items", parentFields := [c2ParentField],
    parentValues := [("items", "")], parentNameColWidth := 7,
    parentTitle := "", editIndex := -1 }

def c2State : AppState :=
  { initState [] with view := .form, fields := [c2SubField],
                      formValues := [("title", "hello")], formStack := [c2Entry],
                      formFilteredIndices := [0, -1], formListCursor := 1 }

/-- Witness for C2 at a concrete one-field sub-form appending to an empty
parent array. -/
theorem c2_witness :
    c2State.formStack.getLast? = some c2Entry ∧
    (popFormStack c2State).formValues =
      oupsert c2Entry.parentValues c2Entry.parentFieldName
        (jsonStringify (.arr
          (if c2Entry.editIndex ≥ 0 then
             setI (parsedArrayDraft c2Entry.parentValues c2Entry.parentFieldName)
               c2Entry.editIndex
               (Json.obj (serializeSubValues c2State.fields c2State.formValues))
           else
             parsedArrayDraft c2Entry.parentValues c2Entry.parentFieldName ++
               [Json.obj (serializeSubValues c2State.fields c2State.formValues)]))) :=
  ⟨rfl, (c2_subform_save_and_cancel (envOf 80 24) c2State c2Entry rfl).1.1⟩

/-! ## Claims C3 and C4: quit keys and the loading no-op -/

def c3State : AppState :=
  { initState [] with searchQuery := "x", searchCursorPos := 1 }

/-- C3 counterexample: in the commands view with a non-empty search query,
Ctrl+C does not clear the query — `onData` intercepts it before the
handler and the loop exits (`none`). -/
theorem c3_counterexample :
    c3State.view = View.commands ∧ c3State.searchQuery ≠ "" ∧
    step (envOf 80 24) c3State (.key ctrlCKeyEv) = none :=
  ⟨rfl, by decide, rfl⟩

theorem insertAt_ne_empty (s : String) (pos : Int) (t : String)
    (ht : 0 < t.length) : insertAt s pos t ≠ "" := by
  intro h
  have hl := congrArg String.length h
  simp only [insertAt, String.length_append] at hl
  simp at hl
  omega

/-- C3 amended: Ctrl+C always exits the loop, before any handler runs; the
commands-view handler treats escape as claimed (clear a non-empty query
without exiting, else arm `quitConfirm`, exiting when already armed); and
`q` coincides with escape exactly on an empty query — with a non-empty
query it is typed into the search instead. -/
theorem c3_amended (env : Env) (state : AppState) :
    (∀ k : KeyEvent, k.ctrl = true → k.name = "c" →
      step env state (.key k) = none) ∧
    (state.searchQuery ≠ "" →
      match handleCommandListInput env state escKeyEv with
      | .st s2 => s2.searchQuery = "" ∧ s2.quitConfirm = false
      | _ => False) ∧
    (state.searchQuery = "" → state.quitConfirm = false →
      handleCommandListInput env state escKeyEv =
        .st { state with quitConfirm := true }) ∧
    (state.searchQuery = "" → state.quitConfirm = true →
      handleCommandListInput env state escKeyEv = .exit) ∧
    (state.searchQuery = "" →
      handleCommandListInput env state qKeyEv =
        handleCommandListInput env state escKeyEv) ∧
    (state.searchQuery ≠ "" →
      match handleCommandListInput env state qKeyEv with
      | .st s2 => s2.searchQuery =
            insertAt state.searchQuery state.searchCursorPos "q" ∧
          s2.searchQuery ≠ "" ∧ s2.quitConfirm = false
      | _ => False) := by
  refine ⟨?_, ?_, ?_, ?_, ?_, ?_⟩
  · intro k h1 h2
    unfold step
    simp [h1, h2]
  · intro hq
    unfold handleCommandListInput
    simp [escKeyEv, hq]
  · intro hq hqc
    unfold handleCommandListInput
    simp [escKeyEv, hq, hqc]
  · intro hq hqc
    unfold handleCommandListInput
    simp [escKeyEv, hq, hqc]
  · intro hq
    unfold handleCommandListInput
    simp [escKeyEv, qKeyEv, hq]
  · intro hq
    have hne : insertAt state.searchQuery state.searchCursorPos "q" ≠ "" :=
      insertAt_ne_empty _ _ _ (by decide)
    have hlq : ("q" : String).length = 1 := rfl
    unfold handleCommandListInput
    cases hqc : state.quitConfirm
    · simp [qKeyEv, hq, hqc, headCharGe32, hne, hlq]
    · simp [qKeyEv, hq, hqc, headCharGe32, hne, hlq]

/-- Witness for C3: Ctrl+C exits even with a query typed, and escape with
an empty query arms the quit confirmation. -/
theorem c3_witness :
    step (envOf 80 24) c3State (.key ctrlCKeyEv) = none ∧
    handleCommandListInput (envOf 80 24) (initState []) escKeyEv =
      .st { initState [] with quitConfirm := true } :=
  ⟨(c3_amended (envOf 80 24) c3State).1 ctrlCKeyEv rfl rfl,
   (c3_amended (envOf 80 24) (initState [])).2.2.1 rfl rfl⟩

def c4State : AppState := { initState [] with view := .loading }

/-- C4 counterexample: while the view is `loading`, Ctrl+C is not dropped:
`onData` exits the loop before the loading check. -/
theorem c4_counterexample :
    c4State.view = View.loading ∧ ctrlCKeyEv.ctrl = true ∧
    ctrlCKeyEv.name = "c" ∧
    step (envOf 80 24) c4State (.key ctrlCKeyEv) = none :=
  ⟨rfl, rfl, rfl, rfl⟩

/-- C4 amended: while the view is `loading` every key event other than
Ctrl+C leaves the state exactly unchanged (no handler runs), and Ctrl+C
exits the loop. -/
theorem c4_amended (env : Env) (state : AppState) (k : KeyEvent)
    (hv : state.view = View.loading) :
    (¬(k.ctrl = true ∧ k.name = "c") → step env state (.key k) = some state) ∧
    (k.ctrl = true → k.name = "c" → step env state (.key k) = none) := by
  constructor
  · intro hnc
    unfold step
    cases hct : k.ctrl
    · simp [hct, hv]
    · have hn : ¬(k.name = "c") := fun hn => hnc ⟨hct, hn⟩
      simp [hct, hn, hv]
  · intro h1 h2
    unfold step
    simp [h1, h2]

/-- Witness for C4: an arrow key while loading is a no-op. -/
theorem c4_witness :
    c4State.view = View.loading ∧
    step (envOf 80 24) c4State (.key upKeyEv) = some c4State :=
  ⟨rfl, (c4_amended (envOf 80 24) c4State upKeyEv rfl).1 (by decide)⟩

/-! ## Claim C5: the draft-key invariant and initial drafts -/

/-- The key set of a draft map is exactly the field-name set. -/
def alignedKeys (values : List (String × String)) (fields : List FormField) : Prop :=
  ∀ n, (olookup values n).isSome ↔ n ∈ fields.map FormField.name

/-- Every frozen parent on the form stack has aligned drafts, and its
array field is taken from its own field list. -/
def stackOk (stack : List FormStackEntry) : Prop :=
  ∀ e ∈ stack, alignedKeys e.parentValues e.parentFields ∧
    e.parentFieldName ∈ e.parentFields.map FormField.name

/-- The state invariant behind C5. -/
def StateInv (s : AppState) : Prop :=
  alignedKeys s.formValues s.fields ∧ stackOk s.formStack

theorem alignedKeys_init_fold (fields : List FormField) (g : FormField → String) :
    alignedKeys (fields.foldl (fun acc f => oupsert acc f.name (g f)) []) fields := by
  intro n
  rw [olookup_init_fold_isSome]
  simp [olookup]

/-- Lookup after any fold whose body upserts at the field's own name. -/
theorem olookup_upsert_fold_isSome (fields : List FormField)
    (g : List (String × String) → FormField → List (String × String))
    (hg : ∀ acc f, ∃ v, g acc f = oupsert acc f.name v)
    (init : List (String × String)) (n : String) :
    (olookup (fields.foldl g init) n).isSome ↔
      n ∈ fields.map FormField.name ∨ (olookup init n).isSome := by
  induction fields generalizing init with
  | nil => simp
  | cons f t ih =>
    simp only [List.foldl_cons, List.map_cons, List.mem_cons]
    rw [ih]
    obtain ⟨v, hv⟩ := hg init f
    rw [hv, olookup_oupsert_isSome]
    tauto

theorem StateInv_of_proj {s2 s : AppState} (h : StateInv s)
    (hf : s2.fields = s.fields) (hv : s2.formValues = s.formValues)
    (hs : s2.formStack = s.formStack) : StateInv s2 := by
  refine ⟨?_, ?_⟩
  · rw [hv, hf]; exact h.1
  · rw [hs]; exact h.2

theorem StateInv_upsert {s2 s : AppState} (h : StateInv s) {k : String} {v : String}
    (hk : k ∈ s.fields.map FormField.name)
    (hf : s2.fields = s.fields) (hv : s2.formValues = oupsert s.formValues k v)
    (hs : s2.formStack = s.formStack) : StateInv s2 := by
  refine ⟨?_, ?_⟩
  · rw [hv, hf]
    intro n
    rw [olookup_oupsert_isSome]
    constructor
    · rintro (rfl | hsome)
      · exact hk
      · exact (h.1 n).mp hsome
    · intro hn
      right
      exact (h.1 n).mpr hn
  · rw [hs]; exact h.2

theorem StateInv_restore {s2 s : AppState} {entry : FormStackEntry} (h : StateInv s)
    (hl : s.formStack.getLast? = some entry)
    (hf : s2.fields = entry.parentFields) (hv : s2.formValues = entry.parentValues)
    (hs : s2.formStack = s.formStack.dropLast) : StateInv s2 := by
  obtain ⟨ha, _⟩ := h.2 entry (mem_of_getLast? hl)
  refine ⟨?_, ?_⟩
  · rw [hv, hf]; exact ha
  · rw [hs]
    intro e he
    exact h.2 e (List.dropLast_subset _ he)

theorem startEditingField_proj (env : Env) (s : AppState) (i : Int) :
    (startEditingField env s i).fields = s.fields ∧
    (startEditingField env s i).formValues = s.formValues ∧
    (startEditingField env s i).formStack = s.formStack := by
  unfold startEditingField
  dsimp only
  repeat' split
  all_goals exact ⟨rfl, rfl, rfl⟩

theorem enterSubForm_aligned (state : AppState) (field : FormField)
    (items : List Json) (c : Int) :
    alignedKeys (enterSubForm state field items c).formValues
      (enterSubForm state field items c).fields := by
  intro n
  unfold enterSubForm
  dsimp only
  split
  · rw [olookup_upsert_fold_isSome]
    · simp [olookup]
    · intro acc f
      rcases getI items c with _ | j
      · exact ⟨_, rfl⟩
      · cases j
        case obj itemFields =>
          dsimp only
          rcases olookup itemFields f.name with _ | jv
          · exact ⟨_, rfl⟩
          · cases jv <;> exact ⟨_, rfl⟩
        all_goals exact ⟨_, rfl⟩
  · rw [olookup_init_fold_isSome]
    simp [olookup]

theorem enterSubForm_stackOk (state : AppState) (field : FormField)
    (items : List Json) (c : Int) (h : StateInv state)
    (hmem : field.name ∈ state.fields.map FormField.name) :
    stackOk (enterSubForm state field items c).formStack := by
  intro e he
  have hstack : (enterSubForm state field items c).formStack =
      state.formStack ++
        [{ parentFieldName := field.name, parentFields := state.fields,
           parentValues := state.formValues,
           parentNameColWidth := state.nameColWidth,
           parentTitle :=
             match state.selectedTool with
             | some t => humanLabel t.name (toolGroupOf t)
             | none => "",
           editIndex := if c < (items.length : Int) then c else -1 }] := rfl
  rw [hstack] at he
  rcases List.mem_append.mp he with h1 | h2
  · exact h.2 e h1
  · rw [List.mem_singleton] at h2
    subst h2
    exact ⟨h.1, hmem⟩

theorem popFormStack_inv (state : AppState) (h : StateInv state) :
    StateInv (popFormStack state) := by
  unfold popFormStack
  rcases hl : state.formStack.getLast? with _ | entry
  · exact h
  · obtain ⟨ha, hm⟩ := h.2 entry (mem_of_getLast? hl)
    refine ⟨?_, ?_⟩
    · intro n
      dsimp only
      rw [olookup_oupsert_isSome]
      constructor
      · rintro (rfl | hsome)
        · exact hm
        · exact (ha n).mp hsome
      · intro hn
        right
        exact (ha n).mpr hn
    · intro e he
      exact h.2 e (List.dropLast_subset _ he)

theorem commandEnterFormState_inv (env : Env) (s : AppState) (tool : ToolDef) :
    StateInv (commandEnterFormState env s tool) := by
  unfold commandEnterFormState
  dsimp only
  split
  · exact ⟨alignedKeys_init_fold _ (fun _ => ""), fun e he => nomatch he⟩
  · split
    · refine StateInv_of_proj ?_ (startEditingField_proj _ _ _).1
        (startEditingField_proj _ _ _).2.1 (startEditingField_proj _ _ _).2.2
      exact ⟨alignedKeys_init_fold _ (fun _ => ""), fun e he => nomatch he⟩
    · exact ⟨alignedKeys_init_fold _ (fun _ => ""), fun e he => nomatch he⟩


theorem handleCommandListInput_inv (env : Env) (state : AppState) (key : KeyEvent)
    (h : StateInv state) (s2 : AppState)
    (hstep : handleCommandListInput env state key = .st s2) : StateInv s2 := by
  unfold handleCommandListInput at hstep
  by_cases hA : (decide (key.name = "escape") || key.ctrl && decide (key.name = "c")) = true
  · rw [if_pos hA] at hstep
    by_cases hB : state.searchQuery ≠ ""
    · rw [if_pos hB] at hstep
      injection hstep with hinj
      subst hinj
      exact StateInv_of_proj h rfl rfl rfl
    · rw [if_neg hB] at hstep
      by_cases hC : state.quitConfirm = true
      · rw [if_pos hC] at hstep
        exact HandlerOut.noConfusion hstep
      · rw [if_neg hC] at hstep
        injection hstep with hinj
        subst hinj
        exact StateInv_of_proj h rfl rfl rfl
  · rw [if_neg hA] at hstep
    by_cases hD : (decide (key.name = "q") && !key.ctrl && decide (state.searchQuery = "")) = true
    · rw [if_pos hD] at hstep
      by_cases hC : state.quitConfirm = true
      · rw [if_pos hC] at hstep
        exact HandlerOut.noConfusion hstep
      · rw [if_neg hC] at hstep
        injection hstep with hinj
        subst hinj
        exact StateInv_of_proj h rfl rfl rfl
    · rw [if_neg hD] at hstep
      by_cases hC : state.quitConfirm = true
      · rw [if_pos hC] at hstep
        dsimp only at hstep
        by_cases hL : key.name = "left"
        · rw [if_pos hL] at hstep
          injection hstep with hinj
          subst hinj
          exact StateInv_of_proj h rfl rfl rfl
        · rw [if_neg hL] at hstep
          by_cases hR : key.name = "right"
          · rw [if_pos hR] at hstep
            injection hstep with hinj
            subst hinj
            exact StateInv_of_proj h rfl rfl rfl
          · rw [if_neg hR] at hstep
            by_cases hU : key.name = "up"
            · rw [if_pos hU] at hstep
              rcases ite_eq_iff.mp hstep with ⟨hc, h2⟩ | ⟨hc, h2⟩ <;>
                · injection h2 with hinj
                  subst hinj
                  exact StateInv_of_proj h rfl rfl rfl
            · rw [if_neg hU] at hstep
              by_cases hDn : key.name = "down"
              · rw [if_pos hDn] at hstep
                rcases ite_eq_iff.mp hstep with ⟨hc, h2⟩ | ⟨hc, h2⟩ <;>
                  · injection h2 with hinj
                    subst hinj
                    exact StateInv_of_proj h rfl rfl rfl
              · rw [if_neg hDn] at hstep
                by_cases hPU : key.name = "pageup"
                · rw [if_pos hPU] at hstep
                  injection hstep with hinj
                  subst hinj
                  exact StateInv_of_proj h rfl rfl rfl
                · rw [if_neg hPU] at hstep
                  by_cases hPD : key.name = "pagedown"
                  · rw [if_pos hPD] at hstep
                    injection hstep with hinj
                    subst hinj
                    exact StateInv_of_proj h rfl rfl rfl
                  · rw [if_neg hPD] at hstep
                    by_cases hRet : key.name = "return"
                    · rw [if_pos hRet] at hstep
                      rcases hgi : getI state.filteredItems state.listCursor with _ | item
                      · rw [hgi] at hstep
                        injection hstep with hinj
                        subst hinj
                        exact StateInv_of_proj h rfl rfl rfl
                      · rw [hgi] at hstep
                        dsimp only at hstep
                        rcases ite_eq_iff.mp hstep with ⟨hc, h2⟩ | ⟨hc, h2⟩
                        · rcases hfind : state.tools.find? (fun t => t.name = item.value) with _ | tool
                          · rw [hfind] at h2
                            injection h2 with hinj
                            subst hinj
                            exact StateInv_of_proj h rfl rfl rfl
                          · rw [hfind] at h2
                            injection h2 with hinj
                            subst hinj
                            exact commandEnterFormState_inv env _ _
                        · injection h2 with hinj
                          subst hinj
                          exact StateInv_of_proj h rfl rfl rfl
                    · rw [if_neg hRet] at hstep
                      by_cases hBk : key.name = "backspace"
                      · rw [if_pos hBk] at hstep
                        rcases ite_eq_iff.mp hstep with ⟨hc, h2⟩ | ⟨hc, h2⟩ <;>
                          · injection h2 with hinj
                            subst hinj
                            exact StateInv_of_proj h rfl rfl rfl
                      · rw [if_neg hBk] at hstep
                        rcases ite_eq_iff.mp hstep with ⟨hc, h2⟩ | ⟨hc, h2⟩
                        · rcases ite_eq_iff.mp h2 with ⟨hc2, h3⟩ | ⟨hc2, h3⟩ <;>
                            · injection h3 with hinj
                              subst hinj
                              exact StateInv_of_proj h rfl rfl rfl
                        · injection h2 with hinj
                          subst hinj
                          exact StateInv_of_proj h rfl rfl rfl
      · rw [if_neg hC] at hstep
        dsimp only at hstep
        by_cases hL : key.name = "left"
        · rw [if_pos hL] at hstep
          injection hstep with hinj
          subst hinj
          exact StateInv_of_proj h rfl rfl rfl
        · rw [if_neg hL] at hstep
          by_cases hR : key.name = "right"
          · rw [if_pos hR] at hstep
            injection hstep with hinj
            subst hinj
            exact StateInv_of_proj h rfl rfl rfl
          · rw [if_neg hR] at hstep
            by_cases hU : key.name = "up"
            · rw [if_pos hU] at hstep
              rcases ite_eq_iff.mp hstep with ⟨hc, h2⟩ | ⟨hc, h2⟩ <;>
                · injection h2 with hinj
                  subst hinj
                  exact StateInv_of_proj h rfl rfl rfl
            · rw [if_neg hU] at hstep
              by_cases hDn : key.name = "down"
              · rw [if_pos hDn] at hstep
                rcases ite_eq_iff.mp hstep with ⟨hc, h2⟩ | ⟨hc, h2⟩ <;>
                  · injection h2 with hinj
                    subst hinj
                    exact StateInv_of_proj h rfl rfl rfl
              · rw [if_neg hDn] at hstep
                by_cases hPU : key.name = "pageup"
                · rw [if_pos hPU] at hstep
                  injection hstep with hinj
                  subst hinj
                  exact StateInv_of_proj h rfl rfl rfl
                · rw [if_neg hPU] at hstep
                  by_cases hPD : key.name = "pagedown"
                  · rw [if_pos hPD] at hstep
                    injection hstep with hinj
                    subst hinj
                    exact StateInv_of_proj h rfl rfl rfl
                  · rw [if_neg hPD] at hstep
                    by_cases hRet : key.name = "return"
                    · rw [if_pos hRet] at hstep
                      rcases hgi : getI state.filteredItems state.listCursor with _ | item
                      · rw [hgi] at hstep
                        injection hstep with hinj
                        subst hinj
                        exact StateInv_of_proj h rfl rfl rfl
                      · rw [hgi] at hstep
                        dsimp only at hstep
                        rcases ite_eq_iff.mp hstep with ⟨hc, h2⟩ | ⟨hc, h2⟩
                        · rcases hfind : state.tools.find? (fun t => t.name = item.value) with _ | tool
                          · rw [hfind] at h2
                            injection h2 with hinj
                            subst hinj
                            exact StateInv_of_proj h rfl rfl rfl
                          · rw [hfind] at h2
                            injection h2 with hinj
                            subst hinj
                            exact commandEnterFormState_inv env _ _
                        · injection h2 with hinj
                          subst hinj
                          exact StateInv_of_proj h rfl rfl rfl
                    · rw [if_neg hRet] at hstep
                      by_cases hBk : key.name = "backspace"
                      · rw [if_pos hBk] at hstep
                        rcases ite_eq_iff.mp hstep with ⟨hc, h2⟩ | ⟨hc, h2⟩ <;>
                          · injection h2 with hinj
                            subst hinj
                            exact StateInv_of_proj h rfl rfl rfl
                      · rw [if_neg hBk] at hstep
                        rcases ite_eq_iff.mp hstep with ⟨hc, h2⟩ | ⟨hc, h2⟩
                        · rcases ite_eq_iff.mp h2 with ⟨hc2, h3⟩ | ⟨hc2, h3⟩ <;>
                            · injection h3 with hinj
                              subst hinj
                              exact StateInv_of_proj h rfl rfl rfl
                        · injection h2 with hinj
                          subst hinj
                          exact StateInv_of_proj h rfl rfl rfl

theorem handleFormPaletteInput_inv (env : Env) (state : AppState) (key : KeyEvent)
    (h : StateInv state) (s2 : AppState)
    (hstep : handleFormPaletteInput env state key = .st s2) : StateInv s2 := by
  unfold handleFormPaletteInput at hstep
  by_cases h1 : (key.ctrl && decide (key.name = "c")) = true
  · rw [if_pos h1] at hstep
    exact HandlerOut.noConfusion hstep
  · rw [if_neg h1] at hstep
    by_cases h2 : key.name = "escape"
    · rw [if_pos h2] at hstep
      dsimp only at hstep
      by_cases h3 : state.formSearchQuery ≠ ""
      · rw [if_pos h3] at hstep
        injection hstep with hinj
        subst hinj
        exact StateInv_of_proj h rfl rfl rfl
      · rw [if_neg h3] at hstep
        rcases hl : state.formStack.getLast? with _ | entry
        · rw [hl] at hstep
          injection hstep with hinj
          subst hinj
          exact StateInv_of_proj h rfl rfl rfl
        · rw [hl] at hstep
          injection hstep with hinj
          subst hinj
          exact StateInv_restore h hl rfl rfl rfl
    · rw [if_neg h2] at hstep
      by_cases h3 : key.name = "tab"
      · rw [if_pos h3] at hstep
        dsimp only at hstep
        repeat' split at hstep
        all_goals first
          | exact HandlerOut.noConfusion hstep
          | (injection hstep with hinj
             subst hinj
             exact StateInv_of_proj h rfl rfl rfl)
      · rw [if_neg h3] at hstep
        dsimp only at hstep
        rcases ite_eq_iff.mp hstep with ⟨-, hstep2⟩ | ⟨-, hstep2⟩
        · repeat' split at hstep2
          all_goals first
            | exact HandlerOut.noConfusion hstep2
            | (injection hstep2 with hinj
               subst hinj
               exact StateInv_of_proj h rfl rfl rfl)
        · by_cases h4 : key.name = "left"
          · rw [if_pos h4] at hstep2
            injection hstep2 with hinj
            subst hinj
            exact StateInv_of_proj h rfl rfl rfl
          · rw [if_neg h4] at hstep2
            by_cases h5 : key.name = "right"
            · rw [if_pos h5] at hstep2
              injection hstep2 with hinj
              subst hinj
              exact StateInv_of_proj h rfl rfl rfl
            · rw [if_neg h5] at hstep2
              by_cases h6 : key.name = "up"
              · rw [if_pos h6] at hstep2
                injection hstep2 with hinj
                subst hinj
                exact StateInv_of_proj h rfl rfl rfl
              · rw [if_neg h6] at hstep2
                by_cases h7 : key.name = "down"
                · rw [if_pos h7] at hstep2
                  injection hstep2 with hinj
                  subst hinj
                  exact StateInv_of_proj h rfl rfl rfl
                · rw [if_neg h7] at hstep2
                  by_cases h8 : key.name = "return"
                  · rw [if_pos h8] at hstep2
                    repeat' split at hstep2
                    all_goals first
                      | exact HandlerOut.noConfusion hstep2
                      | (injection hstep2 with hinj
                         subst hinj
                         first
                           | exact StateInv_of_proj h rfl rfl rfl
                           | exact popFormStack_inv _ h
                           | exact StateInv_of_proj h (startEditingField_proj _ _ _).1
                               (startEditingField_proj _ _ _).2.1
                               (startEditingField_proj _ _ _).2.2)
                  · rw [if_neg h8] at hstep2
                    by_cases h9 : key.name = "backspace"
                    · rw [if_pos h9] at hstep2
                      rcases ite_eq_iff.mp hstep2 with ⟨-, h10⟩ | ⟨-, h10⟩ <;>
                        · injection h10 with hinj
                          subst hinj
                          exact StateInv_of_proj h rfl rfl rfl
                    · rw [if_neg h9] at hstep2
                      rcases ite_eq_iff.mp hstep2 with ⟨-, h10⟩ | ⟨-, h10⟩
                      · rcases ite_eq_iff.mp h10 with ⟨-, h11⟩ | ⟨-, h11⟩ <;>
                          · injection h11 with hinj
                            subst hinj
                            exact StateInv_of_proj h rfl rfl rfl
                      · injection h10 with hinj
                        subst hinj
                        exact StateInv_of_proj h rfl rfl rfl

theorem handleCommandBuilderReadyInput_inv (env : Env) (state : AppState)
    (key : KeyEvent) (h : StateInv state) (s2 : AppState)
    (hstep : handleCommandBuilderReadyInput env state key = .st s2) : StateInv s2 := by
  unfold handleCommandBuilderReadyInput at hstep
  by_cases h1 : (decide (key.name = "escape") || key.ctrl && decide (key.name = "c")) = true
  · rw [if_pos h1] at hstep
    injection hstep with hinj
    subst hinj
    exact StateInv_of_proj h rfl rfl rfl
  · rw [if_neg h1] at hstep
    by_cases h2 : key.name = "return"
    · rw [if_pos h2] at hstep
      try dsimp only at hstep
      repeat' split at hstep
      all_goals first
        | exact HandlerOut.noConfusion hstep
        | (injection hstep with hinj
           subst hinj
           first
             | exact StateInv_of_proj h rfl rfl rfl
             | exact StateInv_of_proj h (startEditingField_proj _ _ _).1
                 (startEditingField_proj _ _ _).2.1 (startEditingField_proj _ _ _).2.2)
    · rw [if_neg h2] at hstep
      by_cases h3 : key.name = "tab"
      · rw [if_pos h3] at hstep
        try dsimp only at hstep
        repeat' split at hstep
        all_goals first
          | exact HandlerOut.noConfusion hstep
          | (injection hstep with hinj
             subst hinj
             exact StateInv_of_proj h rfl rfl rfl)
      · rw [if_neg h3] at hstep
        by_cases h4 : key.name = "backspace"
        · rw [if_pos h4] at hstep
          try dsimp only at hstep
          repeat' split at hstep
          all_goals first
            | exact HandlerOut.noConfusion hstep
            | (injection hstep with hinj
               subst hinj
               first
                 | exact StateInv_of_proj h rfl rfl rfl
                 | exact StateInv_of_proj h (startEditingField_proj _ _ _).1
                     (startEditingField_proj _ _ _).2.1 (startEditingField_proj _ _ _).2.2)
        · rw [if_neg h4] at hstep
          injection hstep with hinj
          subst hinj
          exact StateInv_of_proj h rfl rfl rfl

theorem handleOptionalPickerInput_inv (env : Env) (state : AppState)
    (key : KeyEvent) (h : StateInv state) (s2 : AppState)
    (hstep : handleOptionalPickerInput env state key = .st s2) : StateInv s2 := by
  unfold handleOptionalPickerInput at hstep
  by_cases h1 : (decide (key.name = "escape") || key.ctrl && decide (key.name = "c")) = true
  · rw [if_pos h1] at hstep
    injection hstep with hinj
    subst hinj
    exact StateInv_of_proj h rfl rfl rfl
  · rw [if_neg h1] at hstep
    by_cases h2 : key.name = "up"
    · rw [if_pos h2] at hstep
      injection hstep with hinj
      subst hinj
      exact StateInv_of_proj h rfl rfl rfl
    · rw [if_neg h2] at hstep
      by_cases h3 : key.name = "down"
      · rw [if_pos h3] at hstep
        injection hstep with hinj
        subst hinj
        exact StateInv_of_proj h rfl rfl rfl
      · rw [if_neg h3] at hstep
        by_cases h4 : key.name = "return"
        · rw [if_pos h4] at hstep
          try dsimp only at hstep
          repeat' split at hstep
          all_goals first
            | exact HandlerOut.noConfusion hstep
            | (injection hstep with hinj
               subst hinj
               first
                 | exact StateInv_of_proj h rfl rfl rfl
                 | exact StateInv_of_proj h (startEditingField_proj _ _ _).1
                     (startEditingField_proj _ _ _).2.1 (startEditingField_proj _ _ _).2.2)
        · rw [if_neg h4] at hstep
          injection hstep with hinj
          subst hinj
          exact StateInv_of_proj h rfl rfl rfl

theorem handleResultsInput_inv (env : Env) (state : AppState) (key : KeyEvent)
    (h : StateInv state) (s2 : AppState)
    (hstep : handleResultsInput env state key = .st s2) : StateInv s2 := by
  unfold handleResultsInput at hstep
  by_cases h1 : (key.ctrl && decide (key.name = "c")) = true
  · rw [if_pos h1] at hstep
    rcases ite_eq_iff.mp hstep with ⟨-, h2⟩ | ⟨-, h2⟩
    · exact HandlerOut.noConfusion h2
    · injection h2 with hinj
      subst hinj
      exact StateInv_of_proj h rfl rfl rfl
  · rw [if_neg h1] at hstep
    by_cases h2 : (decide (key.name = "q") && !key.ctrl) = true
    · rw [if_pos h2] at hstep
      rcases ite_eq_iff.mp hstep with ⟨-, h3⟩ | ⟨-, h3⟩
      · exact HandlerOut.noConfusion h3
      · injection h3 with hinj
        subst hinj
        exact StateInv_of_proj h rfl rfl rfl
    · rw [if_neg h2] at hstep
      by_cases hqc : state.quitConfirm = true
      all_goals first
        | rw [if_pos hqc] at hstep
        | rw [if_neg hqc] at hstep
      all_goals (
        by_cases h3 : (decide (key.name = "return") || decide (key.name = "escape")) = true
        · rw [if_pos h3] at hstep
          try dsimp only at hstep
          rcases ite_eq_iff.mp hstep with ⟨-, h4⟩ | ⟨-, h4⟩ <;>
            · injection h4 with hinj
              subst hinj
              exact StateInv_of_proj h rfl rfl rfl
        · rw [if_neg h3] at hstep
          by_cases h4 : key.name = "up"
          · rw [if_pos h4] at hstep
            injection hstep with hinj
            subst hinj
            exact StateInv_of_proj h rfl rfl rfl
          · rw [if_neg h4] at hstep
            by_cases h5 : key.name = "down"
            · rw [if_pos h5] at hstep
              injection hstep with hinj
              subst hinj
              exact StateInv_of_proj h rfl rfl rfl
            · rw [if_neg h5] at hstep
              by_cases h6 : key.name = "left"
              · rw [if_pos h6] at hstep
                injection hstep with hinj
                subst hinj
                exact StateInv_of_proj h rfl rfl rfl
              · rw [if_neg h6] at hstep
                by_cases h7 : key.name = "right"
                · rw [if_pos h7] at hstep
                  injection hstep with hinj
                  subst hinj
                  exact StateInv_of_proj h rfl rfl rfl
                · rw [if_neg h7] at hstep
                  by_cases h8 : key.name = "pageup"
                  · rw [if_pos h8] at hstep
                    injection hstep with hinj
                    subst hinj
                    exact StateInv_of_proj h rfl rfl rfl
                  · rw [if_neg h8] at hstep
                    by_cases h9 : key.name = "pagedown"
                    · rw [if_pos h9] at hstep
                      injection hstep with hinj
                      subst hinj
                      exact StateInv_of_proj h rfl rfl rfl
                    · rw [if_neg h9] at hstep
                      injection hstep with hinj
                      subst hinj
                      exact StateInv_of_proj h rfl rfl rfl)

set_option maxHeartbeats 3200000 in
theorem handleFormEditInput_inv (env : Env) (state : AppState) (key : KeyEvent)
    (h : StateInv state) (s2 : AppState)
    (hstep : handleFormEditInput env state key = .st s2) : StateInv s2 := by
  unfold handleFormEditInput at hstep
  rcases hf : getI state.fields state.formEditFieldIdx with _ | field
  · rw [hf] at hstep
    injection hstep with hinj
    subst hinj
    exact h
  · rw [hf] at hstep
    have hmem : field.name ∈ state.fields.map FormField.name :=
      List.mem_map_of_mem _ (getI_mem hf)
    dsimp only at hstep
    by_cases h1 : key.name = "escape"
    · rw [if_pos h1] at hstep
      repeat' split at hstep
      all_goals first
        | exact HandlerOut.noConfusion hstep
        | (injection hstep with hinj
           subst hinj
           first
             | exact StateInv_of_proj h rfl rfl rfl
             | exact StateInv_upsert h hmem rfl rfl rfl)
    · rw [if_neg h1] at hstep
      by_cases h2 : (key.ctrl && decide (key.name = "c")) = true
      · rw [if_pos h2] at hstep
        exact HandlerOut.noConfusion hstep
      · rw [if_neg h2] at hstep
        by_cases h3 : isArrayOfObjects field.prop = true
        · rw [if_pos h3] at hstep
          repeat' split at hstep
          all_goals first
            | exact HandlerOut.noConfusion hstep
            | (injection hstep with hinj
               subst hinj
               first
                 | exact StateInv_of_proj h rfl rfl rfl
                 | exact StateInv_upsert h hmem rfl rfl rfl
                 | exact ⟨enterSubForm_aligned _ _ _ _,
                     enterSubForm_stackOk _ _ _ _ h hmem⟩)
        · rw [if_neg h3] at hstep
          rcases hdf : dateFieldFormat field.prop with _ | fmt
          · rw [hdf] at hstep
            dsimp only at hstep
            rcases ite_eq_iff.mp hstep with ⟨-, hstep2⟩ | ⟨-, hstep2⟩
            · repeat' split at hstep2
              all_goals first
                | exact HandlerOut.noConfusion hstep2
                | (injection hstep2 with hinj
                   subst hinj
                   first
                     | exact StateInv_of_proj h rfl rfl rfl
                     | exact StateInv_upsert h hmem rfl rfl rfl)
            · rcases ite_eq_iff.mp hstep2 with ⟨-, hstep3⟩ | ⟨-, hstep3⟩
              · repeat' split at hstep3
                all_goals first
                  | exact HandlerOut.noConfusion hstep3
                  | (injection hstep3 with hinj
                     subst hinj
                     first
                       | exact StateInv_of_proj h rfl rfl rfl
                       | exact StateInv_upsert h hmem rfl rfl rfl)
              · rcases ite_eq_iff.mp hstep3 with ⟨-, hstep4⟩ | ⟨-, hstep4⟩
                · repeat' split at hstep4
                  all_goals first
                    | exact HandlerOut.noConfusion hstep4
                    | (injection hstep4 with hinj
                       subst hinj
                       first
                         | exact StateInv_of_proj h rfl rfl rfl
                         | exact StateInv_upsert h hmem rfl rfl rfl)
                · rcases ite_eq_iff.mp hstep4 with ⟨-, hx5⟩ | ⟨-, hx5⟩
                  · repeat' split at hx5
                    all_goals first
                      | exact HandlerOut.noConfusion hx5
                      | (injection hx5 with hinj
                         subst hinj
                         first
                           | exact StateInv_of_proj h rfl rfl rfl
                           | exact StateInv_upsert h hmem rfl rfl rfl)
                  · rcases ite_eq_iff.mp hx5 with ⟨-, hx6⟩ | ⟨-, hx6⟩
                    · repeat' split at hx6
                      all_goals first
                        | exact HandlerOut.noConfusion hx6
                        | (injection hx6 with hinj
                           subst hinj
                           first
                             | exact StateInv_of_proj h rfl rfl rfl
                             | exact StateInv_upsert h hmem rfl rfl rfl)
                    · rcases ite_eq_iff.mp hx6 with ⟨-, hx7⟩ | ⟨-, hx7⟩
                      · repeat' split at hx7
                        all_goals first
                          | exact HandlerOut.noConfusion hx7
                          | (injection hx7 with hinj
                             subst hinj
                             first
                               | exact StateInv_of_proj h rfl rfl rfl
                               | exact StateInv_upsert h hmem rfl rfl rfl)
                      · rcases ite_eq_iff.mp hx7 with ⟨-, hx8⟩ | ⟨-, hx8⟩
                        · repeat' split at hx8
                          all_goals first
                            | exact HandlerOut.noConfusion hx8
                            | (injection hx8 with hinj
                               subst hinj
                               first
                                 | exact StateInv_of_proj h rfl rfl rfl
                                 | exact StateInv_upsert h hmem rfl rfl rfl)
                        · rcases ite_eq_iff.mp hx8 with ⟨-, hx9⟩ | ⟨-, hx9⟩
                          · repeat' split at hx9
                            all_goals first
                              | exact HandlerOut.noConfusion hx9
                              | (injection hx9 with hinj
                                 subst hinj
                                 first
                                   | exact StateInv_of_proj h rfl rfl rfl
                                   | exact StateInv_upsert h hmem rfl rfl rfl)
                          · rcases ite_eq_iff.mp hx9 with ⟨-, hx10⟩ | ⟨-, hx10⟩
                            · repeat' split at hx10
                              all_goals first
                                | exact HandlerOut.noConfusion hx10
                                | (injection hx10 with hinj
                                   subst hinj
                                   first
                                     | exact StateInv_of_proj h rfl rfl rfl
                                     | exact StateInv_upsert h hmem rfl rfl rfl)
                            · rcases ite_eq_iff.mp hx10 with ⟨-, hx11⟩ | ⟨-, hx11⟩
                              · repeat' split at hx11
                                all_goals first
                                  | exact HandlerOut.noConfusion hx11
                                  | (injection hx11 with hinj
                                     subst hinj
                                     first
                                       | exact StateInv_of_proj h rfl rfl rfl
                                       | exact StateInv_upsert h hmem rfl rfl rfl)
                              · rcases ite_eq_iff.mp hx11 with ⟨-, hx12⟩ | ⟨-, hx12⟩
                                · repeat' split at hx12
                                  all_goals first
                                    | exact HandlerOut.noConfusion hx12
                                    | (injection hx12 with hinj
                                       subst hinj
                                       first
                                         | exact StateInv_of_proj h rfl rfl rfl
                                         | exact StateInv_upsert h hmem rfl rfl rfl)
                                · rcases ite_eq_iff.mp hx12 with ⟨-, hx13⟩ | ⟨-, hx13⟩
                                  · repeat' split at hx13
                                    all_goals first
                                      | exact HandlerOut.noConfusion hx13
                                      | (injection hx13 with hinj
                                         subst hinj
                                         first
                                           | exact StateInv_of_proj h rfl rfl rfl
                                           | exact StateInv_upsert h hmem rfl rfl rfl)
                                  · rcases ite_eq_iff.mp hx13 with ⟨-, hx14⟩ | ⟨-, hx14⟩
                                    · repeat' split at hx14
                                      all_goals first
                                        | exact HandlerOut.noConfusion hx14
                                        | (injection hx14 with hinj
                                           subst hinj
                                           first
                                             | exact StateInv_of_proj h rfl rfl rfl
                                             | exact StateInv_upsert h hmem rfl rfl rfl)
                                    · rcases ite_eq_iff.mp hx14 with ⟨-, hx15⟩ | ⟨-, hx15⟩
                                      · repeat' split at hx15
                                        all_goals first
                                          | exact HandlerOut.noConfusion hx15
                                          | (injection hx15 with hinj
                                             subst hinj
                                             first
                                               | exact StateInv_of_proj h rfl rfl rfl
                                               | exact StateInv_upsert h hmem rfl rfl rfl)
                                      · rcases ite_eq_iff.mp hx15 with ⟨-, hx16⟩ | ⟨-, hx16⟩
                                        · repeat' split at hx16
                                          all_goals first
                                            | exact HandlerOut.noConfusion hx16
                                            | (injection hx16 with hinj
                                               subst hinj
                                               first
                                                 | exact StateInv_of_proj h rfl rfl rfl
                                                 | exact StateInv_upsert h hmem rfl rfl rfl)
                                        · repeat' split at hx16
                                          all_goals first
                                            | exact HandlerOut.noConfusion hx16
                                            | (injection hx16 with hinj
                                               subst hinj
                                               first
                                                 | exact StateInv_of_proj h rfl rfl rfl
                                                 | exact StateInv_upsert h hmem rfl rfl rfl)
          · rw [hdf] at hstep
            dsimp only at hstep
            repeat' split at hstep
            all_goals first
              | exact HandlerOut.noConfusion hstep
              | (injection hstep with hinj
                 subst hinj
                 first
                   | exact StateInv_of_proj h rfl rfl rfl
                   | exact StateInv_upsert h hmem rfl rfl rfl)

theorem handleFormInput_inv (env : Env) (state : AppState) (key : KeyEvent)
    (h : StateInv state) (s2 : AppState)
    (hstep : handleFormInput env state key = .st s2) : StateInv s2 := by
  unfold handleFormInput at hstep
  by_cases h1 : state.formStack.length > 0
  · rw [if_pos h1] at hstep
    by_cases h2 : state.formEditing = true
    · rw [if_pos h2] at hstep
      exact handleFormEditInput_inv env state key h s2 hstep
    · rw [if_neg h2] at hstep
      exact handleFormPaletteInput_inv env state key h s2 hstep
  · rw [if_neg h1] at hstep
    by_cases h2 : state.formEditing = true
    · rw [if_pos h2] at hstep
      rcases he : handleFormEditInput env state key with r | _ | _
      all_goals rw [he] at hstep
      · have hr : StateInv r := handleFormEditInput_inv env state key h r he
        dsimp only at hstep
        repeat' split at hstep
        all_goals first
          | exact HandlerOut.noConfusion hstep
          | (injection hstep with hinj
             subst hinj
             first
               | exact hr
               | exact StateInv_of_proj hr (startEditingField_proj _ _ _).1
                   (startEditingField_proj _ _ _).2.1 (startEditingField_proj _ _ _).2.2)
      · exact HandlerOut.noConfusion hstep
      · exact HandlerOut.noConfusion hstep
    · rw [if_neg h2] at hstep
      by_cases h3 : state.formShowOptional = true
      · rw [if_pos h3] at hstep
        exact handleOptionalPickerInput_inv env state key h s2 hstep
      · rw [if_neg h3] at hstep
        exact handleCommandBuilderReadyInput_inv env state key h s2 hstep

theorem handleInput_inv (env : Env) (state : AppState) (key : KeyEvent)
    (h : StateInv state) (s2 : AppState)
    (hstep : handleInput env state key = .st s2) : StateInv s2 := by
  unfold handleInput at hstep
  rcases hv : state.view
  all_goals rw [hv] at hstep
  · exact handleCommandListInput_inv env state key h s2 hstep
  · exact handleFormInput_inv env state key h s2 hstep
  · injection hstep with hinj
    subst hinj
    exact h
  · exact handleResultsInput_inv env state key h s2 hstep

theorem step_inv (env : Env) (state : AppState) (ev : AppEvent) (s2 : AppState)
    (h : StateInv state) (hstep : step env state ev = some s2) : StateInv s2 := by
  cases ev with
  | key k =>
    unfold step at hstep
    dsimp only at hstep
    by_cases h1 : (k.ctrl && decide (k.name = "c")) = true
    · rw [if_pos h1] at hstep
      cases hstep
    · rw [if_neg h1] at hstep
      by_cases h2 : state.view = View.loading
      · rw [if_pos h2] at hstep
        injection hstep with hinj
        subst hinj
        exact h
      · rw [if_neg h2] at hstep
        rcases hh : handleInput env state k with r | _ | _
        all_goals rw [hh] at hstep
        · have hr : StateInv r := handleInput_inv env state k h r hh
          dsimp only at hstep
          rcases ite_eq_iff.mp hstep with ⟨-, h3⟩ | ⟨-, h3⟩ <;>
            · injection h3 with hinj
              subst hinj
              exact StateInv_of_proj hr rfl rfl rfl
        · cases hstep
        · injection hstep with hinj
          subst hinj
          exact StateInv_of_proj h rfl rfl rfl
  | spinnerTick =>
    unfold step at hstep
    dsimp only at hstep
    rcases ite_eq_iff.mp hstep with ⟨-, h3⟩ | ⟨-, h3⟩ <;>
      · injection h3 with hinj
        subst hinj
        first
          | exact StateInv_of_proj h rfl rfl rfl
          | exact h
  | quitTimerFire =>
    unfold step at hstep
    dsimp only at hstep
    injection hstep with hinj
    subst hinj
    exact StateInv_of_proj h rfl rfl rfl
  | toolDone r e =>
    unfold step at hstep
    dsimp only at hstep
    rcases ite_eq_iff.mp hstep with ⟨-, h3⟩ | ⟨-, h3⟩ <;>
      · injection h3 with hinj
        subst hinj
        first
          | exact StateInv_of_proj h rfl rfl rfl
          | exact h
  
theorem initState_inv (tools : List ToolDef) : StateInv (initState tools) := by
  refine ⟨?_, ?_⟩
  · intro n
    simp [initState, olookup]
  · intro e he
    simp [initState] at he

theorem reachable_inv (env : Env) (tools : List ToolDef) (s : AppState)
    (h : Reachable env tools s) : StateInv s := by
  induction h with
  | init => exact initState_inv tools
  | next hr hs ih => exact step_inv env _ _ _ ih hs

def c5Prop : SchemaProperty :=
  .mk (some "integer") none none none none (some (.num 5)) none none none none

def c5Tool : ToolDef :=
  { name := "t", description := none,
    inputSchema := { type := "object", properties := some [("count", c5Prop)],
                     required := none, defs := none } }

/-- C5 counterexample: a top-level form created for a tool whose property
carries `default: 5` initializes the draft to `""`, not to the stringified
default `"5"` — only sub-forms consult the schema default. -/
theorem c5_counterexample :
    olookup (commandEnterFormState (envOf 80 24) (initState [c5Tool]) c5Tool).formValues
      "count" = some "" ∧
    jsToString (Json.num 5) = "5" ∧ ("" : String) ≠ "5" :=
  ⟨rfl, rfl, by decide⟩

/-- C5 amended: for every reachable state the key set of `formValues`
equals the field-name set of the current `fields` list; a top-level form
created from the commands view initializes every draft to `""` (schema
defaults are ignored there); a fresh array-of-objects sub-form initializes
each draft to the stringified schema default when one is present and to
`""` otherwise. -/
theorem c5_amended (env : Env) (tools : List ToolDef) (s : AppState)
    (h : Reachable env tools s) :
    (∀ n, (olookup s.formValues n).isSome ↔ n ∈ s.fields.map FormField.name) ∧
    (∀ (tool : ToolDef) (f : FormField),
      f ∈ (commandEnterFormState env s tool).fields →
      (((commandEnterFormState env s tool).fields.map FormField.name).Nodup) →
      olookup (commandEnterFormState env s tool).formValues f.name = some "") ∧
    (∀ (field : FormField) (items : List Json) (c : Int) (f : FormField),
      ¬ c < (items.length : Int) →
      f ∈ (enterSubForm s field items c).fields →
      (((enterSubForm s field items c).fields.map FormField.name).Nodup) →
      olookup (enterSubForm s field items c).formValues f.name =
        some (defaultDraftOf f)) := by
  refine ⟨(reachable_inv env tools s h).1, ?_, ?_⟩
  · intro tool f hf hnd
    have hfld : (commandEnterFormState env s tool).fields =
        ((tool.inputSchema.properties.getD []).map fun p =>
          { name := p.1, prop := resolveProperty p.2 tool.inputSchema.defs,
            required := (tool.inputSchema.required.getD []).contains p.1 }) := by
      unfold commandEnterFormState
      dsimp only
      split
      · rfl
      · split
        · exact (startEditingField_proj _ _ _).1
        · rfl
    have hvals : (commandEnterFormState env s tool).formValues =
        ((tool.inputSchema.properties.getD []).map fun p =>
          ({ name := p.1, prop := resolveProperty p.2 tool.inputSchema.defs,
             required := (tool.inputSchema.required.getD []).contains p.1 }
            : FormField)).foldl (fun acc f2 => oupsert acc f2.name "") [] := by
      unfold commandEnterFormState
      dsimp only
      split
      · rfl
      · split
        · exact (startEditingField_proj _ _ _).2.1
        · rfl
    rw [hfld] at hf hnd
    rw [hvals]
    exact olookup_init_fold_eq _ (fun _ => "") hnd f hf []
  · intro field items c f hc hf hnd
    have hfld : (enterSubForm s field items c).fields = subFieldsOf s field := rfl
    have hvals : (enterSubForm s field items c).formValues =
        (subFieldsOf s field).foldl
          (fun acc f2 => oupsert acc f2.name (defaultDraftOf f2)) [] := by
      unfold enterSubForm
      dsimp only
      rw [if_neg hc]
    rw [hfld] at hf hnd
    rw [hvals]
    exact olookup_init_fold_eq _ defaultDraftOf hnd f hf []

/-- Witness for C5 at the initial state. -/
theorem c5_witness :
    ((olookup (initState []).formValues "a").isSome ↔
      "a" ∈ (initState []).fields.map FormField.name) :=
  (c5_amended (envOf 80 24) [] (initState []) Reachable.init).1 "a"

end RWCli
